import Mathlib

/-! # CameraStreamServer (cross_lib/wuwu/ww_camera_server.cpp)

A shallow embedding of the MJPEG camera streaming server: request parsing and
routing, the snapshot file-name logic, the frame store and the start/stop
life cycle, followed by the properties established about them.

Byte strings (`std::string`, `std::vector<unsigned char>`, socket payloads) are
lists of characters; a byte is the character with the same code.
-/

namespace CameraStreamServer

/-! ## Byte strings and the `std::string` operations used by the server -/

/-- Byte string: the contents of a `std::string` or of a byte buffer. -/
abbrev Str := List Char

/-- The value `std::string::npos`, the largest `size_t` (64-bit target). -/
def npos : Nat := 2 ^ 64 - 1

/-- Arithmetic on `size_t` wraps modulo `2 ^ 64`. -/
def size_add (a b : Nat) : Nat := (a + b) % 2 ^ 64

/-- Subtraction on `size_t` wraps modulo `2 ^ 64`. -/
def size_sub (a b : Nat) : Nat := (a + 2 ^ 64 - b % 2 ^ 64) % 2 ^ 64

/-- Scan of `std::string::find`: `s` is the part of the string that starts at
index `i`; the result is the first index at which `pat` occurs. -/
def find_scan (pat : Str) : Str → Nat → Option Nat
  | [], i => if pat.isPrefixOf [] then some i else none
  | c :: cs, i => if pat.isPrefixOf (c :: cs) then some i else find_scan pat cs (i + 1)

/-- The call `s.find(pat, pos)`: index of the first occurrence of `pat` at or
after `pos`, or `npos` when there is none (also when `pos` is past the end). -/
def find (s pat : Str) (pos : Nat) : Nat :=
  if s.length < pos then npos
  else match find_scan pat (s.drop pos) pos with
    | some i => i
    | none => npos

/-- The call `s.substr(pos, n)`: `none` stands for the `std::out_of_range`
exception thrown when `pos > s.size()`; the count is clamped to the end. -/
def substr (s : Str) (pos n : Nat) : Option Str :=
  if s.length < pos then none else some ((s.drop pos).take n)

/-- The call `s.replace(pos, n, r)` for `pos <= s.size()`. -/
def replace (s : Str) (pos n : Nat) (r : Str) : Str :=
  s.take pos ++ r ++ s.drop (pos + n)

/-- Construction of a `std::string` from a NUL-terminated buffer: the bytes
before the first NUL. -/
def cstr (buf : Str) : Str := buf.takeWhile (fun c => c != Char.ofNat 0)

/-- Decimal digits printed for an unsigned integer (`%zu`, `operator<<`). -/
def utoa (n : Nat) : Str := Nat.toDigits 10 n

/-- The bytes of a string literal of the source (UTF-8 encoded). -/
def bytes_of (s : String) : Str := s.toUTF8.data.toList.map (fun b => Char.ofNat b.toNat)

/-! ## Responses -/

/-- The function `send_response`: two `send` calls, the header and the body.
The status line is the fixed text of the source. -/
def send_response (content_type body : Str) : List Str :=
  [ "HTTP/1.1 200 OK\r\n".toList
      ++ "Content-Type: ".toList ++ cstr content_type ++ "\r\n".toList
      ++ "Content-Length: ".toList ++ utoa body.length ++ "\r\n".toList
      ++ "Connection: close\r\n\r\n".toList,
    body ]

/-- All bytes written to the socket by a list of `send` calls, in order. -/
def sent_bytes (sends : List Str) : Str := sends.flatten

/-- Body of the not-found branch (`not_found` in `handle_client_request`). -/
def not_found : Str := "<h1>404 Not Found</h1>".toList

/-! ## Snapshot file-name prefix -/

/-- The C function `isalnum` in the "C" locale: true for the ASCII letters and
digits only, false for every other byte. -/
def isalnum (c : Char) : Bool :=
  (48 ≤ c.toNat && c.toNat ≤ 57) || (65 ≤ c.toNat && c.toNat ≤ 90)
    || (97 ≤ c.toNat && c.toNat ≤ 122)

/-- The validity loop of `handle_client_request`: `valid` stays true when no
character fails `isalnum(c) || c == '_' || c == '-'`. -/
def pfx_valid : Str → Bool
  | [] => true
  | c :: cs => if !isalnum c && c != '_' && c != '-' then false else pfx_valid cs

/-- The safety check on the parsed value: an invalid or empty value is
replaced by the default. -/
def sanitize (p : Str) : Str :=
  if !pfx_valid p || p.isEmpty then "snapshot".toList else p

/-- The `%20` decoding loop: `while ((pos = p.find("%20", pos)) != npos)`
replaces the three bytes by a space and advances `pos` by one. Every
iteration shortens the string, so `fuel = p.length` iterations suffice. -/
def decode_loop : Nat → Str → Nat → Str
  | 0, p, _ => p
  | fuel + 1, p, pos =>
    let pos1 := find p "%20".toList pos
    if pos1 = npos then p
    else decode_loop fuel (replace p pos1 3 " ".toList) (size_add pos1 1)

/-- URL decoding as done by the server: only `%20` is decoded. -/
def url_decode (p : Str) : Str := decode_loop p.length p 0

/-- The value of `prefix` when `handle_snapshot_request` is called, for a
request path `path`; `none` stands for an exception from `substr`. -/
def snapshot_pfx (path : Str) : Option Str :=
  let query_pos := find path "?prefix=".toList 0
  if query_pos ≠ npos then
    let pfx_start := size_add query_pos 8
    let pfx_end0 := find path "&".toList pfx_start
    let pfx_end := if pfx_end0 = npos then path.length else pfx_end0
    match substr path pfx_start (size_sub pfx_end pfx_start) with
    | none => none
    | some raw => some (sanitize (url_decode raw))
  else some "snapshot".toList

/-! ## Request routing -/

/-- The call made by one branch of `handle_client_request`. -/
inductive Call where
  | send_response (content_type body : Str)
  | send_mjpeg_stream
  | send_stats_response
  | handle_snapshot_request (pfx : Str)
  deriving DecidableEq, Repr

/-- The branch chain of `handle_client_request` on the parsed path.
`viewer_html` is the static page of the source; `none` stands for an
exception escaping the handler. -/
def route (viewer_html path : Str) : Option Call :=
  if path = "/".toList ∨ find path "/viewer".toList 0 = 0 ∨ find path "/?".toList 0 = 0 then
    some (Call.send_response "text/html; charset=utf-8".toList viewer_html)
  else if find path "/stream".toList 0 = 0 then
    some Call.send_mjpeg_stream
  else if find path "/stats".toList 0 = 0 then
    some Call.send_stats_response
  else if find path "/snapshot".toList 0 = 0 then
    match snapshot_pfx path with
    | none => none
    | some p => some (Call.handle_snapshot_request p)
  else
    some (Call.send_response "text/html".toList not_found)

/-- Path extraction of `handle_client_request`: the text between the first
space and the next one. `none` stands for `std::out_of_range`. -/
def parse_path (request : Str) : Option Str :=
  let path_start := size_add (find request " ".toList 0) 1
  let path_end := find request " ".toList path_start
  substr request path_start (size_sub path_end path_start)

/-- What a connection handler does with the client socket. -/
inductive SockOp where
  | call (c : Call)
  | close
  deriving DecidableEq, Repr

/-- The function `handle_client_request`. `received` is the result of `recv`:
`none` when it returned `n <= 0`, otherwise the bytes read. The result is the
list of operations on the socket, `none` when an exception escapes. -/
def handle_client_request (viewer_html : Str) (received : Option Str) :
    Option (List SockOp) :=
  match received with
  | none => some [SockOp.close]
  | some buf =>
    match parse_path (cstr buf) with
    | none => none
    | some path =>
      match route viewer_html path with
      | none => none
      | some c => some [SockOp.call c, SockOp.close]

/-! ## Snapshot file name -/

/-- The fields of `struct tm` read by `handle_snapshot_request`. -/
structure Tm where
  tm_year : Int
  tm_mon : Int
  tm_mday : Int
  tm_hour : Int
  tm_min : Int
  tm_sec : Int
  deriving DecidableEq, Repr

/-- Left padding with `'0'` up to `width` characters. -/
def zero_pad (width : Nat) (digits : Str) : Str :=
  List.replicate (width - digits.length) '0' ++ digits

/-- The `printf` conversion `%0<width>d`: zero padded to a minimum width,
the sign first for a negative number. -/
def fmt_d (width : Nat) (v : Int) : Str :=
  if v < 0 then '-' :: zero_pad (width - 1) (utoa v.natAbs)
  else zero_pad width (utoa v.toNat)

/-- The text `snprintf` would produce for the file name, before the buffer
size is applied: format `"%s_%04d%02d%02d_%02d%02d%02d.png"`. -/
def filename_text (pfx : Str) (t : Tm) : Str :=
  cstr pfx ++ "_".toList
    ++ fmt_d 4 (t.tm_year + 1900) ++ fmt_d 2 (t.tm_mon + 1) ++ fmt_d 2 t.tm_mday
    ++ "_".toList
    ++ fmt_d 2 t.tm_hour ++ fmt_d 2 t.tm_min ++ fmt_d 2 t.tm_sec
    ++ ".png".toList

/-- The file name of a snapshot: `snprintf(filename, sizeof(filename), ...)`
with `char filename[256]` keeps at most 255 characters. -/
def snapshot_filename (pfx : Str) (t : Tm) : Str :=
  (filename_text pfx t).take 255

/-- Header of the successful snapshot response, for an encoded image of
`image_size` bytes. -/
def snapshot_header (image_size : Nat) (filename : Str) : Str :=
  "HTTP/1.1 200 OK\r\n".toList
    ++ "Content-Type: image/png\r\n".toList
    ++ "Content-Length: ".toList ++ utoa image_size ++ "\r\n".toList
    ++ "Content-Disposition: attachment; filename=\"".toList ++ filename ++ "\"\r\n".toList
    ++ "Cache-Control: no-cache\r\n".toList
    ++ "Connection: close\r\n\r\n".toList

/-- The characters of the class `[A-Za-z0-9_-]`. -/
def allowed_chars : Str :=
  "ABCDEFGHIJKLMNOPQRSTUVWXYZabcdefghijklmnopqrstuvwxyz0123456789_-".toList

/-! ## Server state -/

/-- An image (`cv::Mat`): its element data; the empty image has none. -/
structure Mat where
  data : List Nat
  deriving DecidableEq, Repr

/-- The call `frame.empty()`. -/
def Mat.empty (m : Mat) : Bool := m.data.isEmpty

/-- The static pointer `CameraStreamServer::instance`, seen from one server. -/
inductive Instance where
  | null
  | this
  | other
  deriving DecidableEq, Repr

/-- The fields of `CameraStreamServer`, the two function-local statics of
`update_frame`, the static instance pointer, and the record of `close` calls
made on listening sockets. Counters of type `uint64_t` hold values below
`2 ^ 64`. -/
structure Server where
  server_sock_fd : Int
  server_port : Int
  running : Bool
  server_thread_id : Nat
  current_jpeg : Str
  latest_frame_id : Nat
  latest_capture_ts_ms : Nat
  ema_fps : Rat
  original_frame : Mat
  last_capture_ts_local : Nat
  local_fps_estimate : Rat
  inst : Instance
  signals_hooked : Bool
  closed_fds : List Int
  deriving DecidableEq

/-- The default port `CAMERA_STREAM_DEFAULT_PORT`. -/
def CAMERA_STREAM_DEFAULT_PORT : Int := 9595

/-- The constructor `CameraStreamServer::CameraStreamServer`, in a process
where no server was started and no frame was pushed yet. -/
def fresh : Server :=
  { server_sock_fd := -1
    server_port := CAMERA_STREAM_DEFAULT_PORT
    running := false
    server_thread_id := 0
    current_jpeg := []
    latest_frame_id := 0
    latest_capture_ts_ms := 0
    ema_fps := 0
    original_frame := { data := [] }
    last_capture_ts_local := 0
    local_fps_estimate := 0
    inst := Instance.null
    signals_hooked := false
    closed_fds := [] }

/-- Subtraction on `uint64_t`. -/
def u64_sub (a b : Nat) : Nat := (a % 2 ^ 64 + 2 ^ 64 - b % 2 ^ 64) % 2 ^ 64

/-- One call of `update_frame`: the frame, the value `now_ms()` returns
during the call, and the outcome of `cv::imencode(".jpg", ...)` (`none` when
it returns false, otherwise the bytes it produced). -/
structure FrameCall where
  frame : Mat
  now : Nat
  encoded : Option Str
  deriving DecidableEq

/-- The frame-rate update of `update_frame` (the block "计算FPS"). The
`double` values are modelled by exact rationals: every operation gives its
exact result, the rounding of the floating-point operations is left out. -/
def update_fps (s : Server) (capture_ts_ms : Nat) : Server :=
  let s1 :=
    if s.last_capture_ts_local ≠ 0 then
      let delta := u64_sub capture_ts_ms s.last_capture_ts_local
      if delta > 0 then
        let instant_fps : Rat := 1000 / (delta : Rat)
        let est : Rat :=
          if s.local_fps_estimate ≤ 0 then instant_fps
          else (85 / 100) * s.local_fps_estimate + (15 / 100) * instant_fps
        { s with local_fps_estimate := est, ema_fps := est }
      else s
    else s
  { s1 with last_capture_ts_local := capture_ts_ms }

/-- The function `update_frame`. -/
def update_frame (s : Server) (c : FrameCall) : Server :=
  if c.frame.empty then s
  else
    let capture_ts_ms := c.now % 2 ^ 64
    let s1 := { s with original_frame := c.frame }
    let s2 := update_fps s1 capture_ts_ms
    match c.encoded with
    | some jpeg_buffer =>
      { s2 with
        latest_capture_ts_ms := capture_ts_ms
        current_jpeg := jpeg_buffer
        latest_frame_id := (s2.latest_frame_id + 1) % 2 ^ 64 }
    | none => s2

/-- A sequence of `update_frame` calls. -/
def update_frames (s : Server) (calls : List FrameCall) : Server :=
  calls.foldl update_frame s

/-- A call counts when its frame is non-empty and its JPEG encode succeeds. -/
def FrameCall.ok (c : FrameCall) : Bool := !c.frame.empty && c.encoded.isSome

/-- Number of calls with a non-empty frame and a successful encode. -/
def successes (calls : List FrameCall) : Nat := (calls.filter FrameCall.ok).length

/-! ## Start and stop -/

/-- The function `close_server_socket`. -/
def close_server_socket (s : Server) : Server :=
  if 0 ≤ s.server_sock_fd then
    { s with closed_fds := s.closed_fds ++ [s.server_sock_fd], server_sock_fd := -1 }
  else s

/-- The function `start_server`; `thread` is the outcome of `pthread_create`
(`none` when it fails, otherwise the new thread id). Returns the status code
and the new state. -/
def start_server (s : Server) (port : Int) (thread : Option Nat) : Int × Server :=
  if s.running then (0, s)
  else
    let s1 := { s with
      server_port := port
      running := true
      latest_frame_id := 0
      current_jpeg := []
      inst := Instance.this
      signals_hooked := true }
    match thread with
    | none => (-1, { s1 with running := false })
    | some tid => (0, { s1 with server_thread_id := tid })

/-- The function `stop_server`. The condition-variable broadcast changes no
field; waiting stream loops re-test their condition at their next step. -/
def stop_server (s : Server) : Server :=
  if !s.running then s
  else
    let s1 := close_server_socket { s with running := false }
    { s1 with inst := if s1.inst = Instance.this then Instance.null else s1.inst }

/-- The function `is_running`. -/
def is_running (s : Server) : Bool := s.running

/-- Outcomes of the system calls made by `server_thread_func` before its
accept loop: the descriptor returned by `socket` (negative on failure) and
whether `bind` and `listen` succeed. -/
structure SockEnv where
  socket_fd : Int
  bind_ok : Bool
  listen_ok : Bool
  deriving DecidableEq, Repr

/-- The part of `server_thread_func` before the accept loop. The Boolean
tells whether the thread reaches the accept loop; otherwise it has returned. -/
def server_thread_setup (s : Server) (env : SockEnv) : Server × Bool :=
  if env.socket_fd < 0 then (s, false)
  else
    let s1 := { s with server_sock_fd := env.socket_fd }
    if !env.bind_ok then ({ s1 with closed_fds := s1.closed_fds ++ [env.socket_fd] }, false)
    else if !env.listen_ok then
      ({ s1 with closed_fds := s1.closed_fds ++ [env.socket_fd] }, false)
    else (s1, true)

/-! ## Snapshot handler -/

/-- Body sent when no frame is stored (`error_html`, first branch). -/
def error_no_frame : Str := bytes_of "<h1>Error</h1><p>没有可用的图像帧</p>"

/-- Body sent when the PNG encode fails (`error_html`, second branch). -/
def error_encode : Str := bytes_of "<h1>Error</h1><p>图像编码失败</p>"

/-- The function `handle_snapshot_request`: the `send` calls it makes. `png`
is the outcome of `cv::imencode(".png", ...)` on the stored frame (`none`
when it returns false) and `t` the local time read for the file name. -/
def handle_snapshot_request (s : Server) (pfx : Str) (png : Option Str) (t : Tm) : List Str :=
  let frame_copy := s.original_frame
  if frame_copy.empty then
    send_response "text/html; charset=utf-8".toList error_no_frame
  else
    match png with
    | none => send_response "text/html; charset=utf-8".toList error_encode
    | some image_buffer =>
      [snapshot_header image_buffer.length (cstr (snapshot_filename pfx t)), image_buffer]

/-! ## MJPEG stream loop -/

/-- The three `send` calls of one multipart part. -/
def mjpeg_part (jpeg_copy : Str) : List Str :=
  [ ("--frame\r\nContent-Type: image/jpeg\r\nContent-Length: ".toList
      ++ utoa jpeg_copy.length ++ "\r\n\r\n".toList).take 255,
    jpeg_copy,
    "\r\n".toList ]

/-- Header sent once by `send_mjpeg_stream` before its loop. -/
def mjpeg_header : Str :=
  ("HTTP/1.1 200 OK\r\n" ++ "Content-Type: multipart/x-mixed-replace; boundary=frame\r\n"
    ++ "Cache-Control: no-cache\r\n" ++ "Connection: close\r\n\r\n").toList

/-- Local state of one `send_mjpeg_stream` call: `last_frame_sent`, the
frames copied out for sending (frame id and bytes, oldest first), the
payloads of the `send` calls made, and whether the loop has been left. -/
structure StreamClient where
  last_frame_sent : Nat
  parts : List (Nat × Str)
  sends : List Str
  done : Bool
  deriving DecidableEq

/-- State of `send_mjpeg_stream` when it reaches its loop. -/
def stream_begin : StreamClient :=
  { last_frame_sent := 0, parts := [], sends := [mjpeg_header], done := false }

/-- One step of the loop of `send_mjpeg_stream` against the server state `s`:
the section under `frame_mutex` followed by the three `send` calls.
`fail_at` names the first `send` of the part that returns a negative value
(`none` when all three succeed). While `latest_frame_id == last_frame_sent`
the thread stays in `pthread_cond_wait` and nothing changes. -/
def stream_step (s : Server) (cl : StreamClient) (fail_at : Option (Fin 3)) : StreamClient :=
  if cl.done then cl
  else if !s.running then { cl with done := true }
  else if s.latest_frame_id = cl.last_frame_sent then cl
  else if s.current_jpeg.isEmpty then cl
  else
    let jpeg_copy := s.current_jpeg
    let cl1 := { cl with
      last_frame_sent := s.latest_frame_id
      parts := cl.parts ++ [(s.latest_frame_id, jpeg_copy)] }
    match fail_at with
    | none => { cl1 with sends := cl1.sends ++ mjpeg_part jpeg_copy }
    | some k => { cl1 with sends := cl1.sends ++ (mjpeg_part jpeg_copy).take (k.val + 1), done := true }

/-- An event of a run: a call of `update_frame` by the capture thread or one
step of the stream loop. -/
inductive Event where
  | update (c : FrameCall)
  | stream (fail_at : Option (Fin 3))
  deriving DecidableEq

/-- Effect of one event on the server and on the stream client. -/
def step (st : Server × StreamClient) (e : Event) : Server × StreamClient :=
  match e with
  | Event.update c => (update_frame st.1 c, st.2)
  | Event.stream f => (st.1, stream_step st.1 st.2 f)

/-- An interleaving of `update_frame` calls with the steps of one stream loop. -/
def run (st : Server × StreamClient) (evs : List Event) : Server × StreamClient :=
  evs.foldl step st

/-- The update calls of an interleaving. -/
def updates_of : List Event → List FrameCall
  | [] => []
  | Event.update c :: es => c :: updates_of es
  | Event.stream _ :: es => updates_of es

/-- Frame ids of the parts sent by a stream client, oldest first. -/
def sent_ids (cl : StreamClient) : List Nat := cl.parts.map Prod.fst

/-! ## Statistics response -/

/-- Rounding of a non-negative value to the nearest integer, ties to even, as
done when a floating-point value is printed with a fixed precision. -/
def round_half_even (q : Rat) : Nat :=
  let f := q.floor.toNat
  let r := q - (f : Rat)
  if r < 1 / 2 then f
  else if 1 / 2 < r then f + 1
  else if f % 2 = 0 then f else f + 1

/-- Output of `operator<<` for a `double` under `std::fixed` and
`std::setprecision(2)`: the value rounded to hundredths, the integer part, a
point and two digits. -/
def fmt_fixed2 (q : Rat) : Str :=
  let a : Rat := if q < 0 then -q else q
  let h := round_half_even (a * 100)
  (if q < 0 then ['-'] else []) ++ utoa (h / 100) ++ ['.'] ++ zero_pad 2 (utoa (h % 100))

/-- The JSON text built by `send_stats_response`; `server_ts` is the value of
`now_ms()` during the call. -/
def stats_json (s : Server) (server_ts : Nat) : Str :=
  "\x7b\"latestFrameId\":".toList ++ utoa s.latest_frame_id
    ++ ",\"latestCaptureTsMs\":".toList ++ utoa s.latest_capture_ts_ms
    ++ ",\"serverTsMs\":".toList ++ utoa server_ts
    ++ ",\"estimatedFps\":".toList ++ fmt_fixed2 s.ema_fps ++ "\x7d".toList

/-- The function `send_stats_response`: the `send` calls it makes. -/
def send_stats_response (s : Server) (server_ts : Nat) : List Str :=
  send_response "application/json; charset=utf-8".toList (stats_json s server_ts)

/-! ## Accept loop and client threads -/

/-- The function `client_thread_func`: what the handler thread does with the
socket it was given; `inst` is the static instance pointer it reads. -/
def client_thread_func (inst : Instance) (viewer_html : Str) (received : Option Str) :
    Option (List SockOp) :=
  if inst ≠ Instance.null then handle_client_request viewer_html received
  else some [SockOp.close]

/-- One pass of the accept loop of `server_thread_func`: the operations made
on the socket `client_sock` returned by `accept`. `thread_created` tells
whether `pthread_create` succeeds; its result is not tested by the loop, so
when it fails no handler runs. -/
def accept_pass (client_sock : Int) (thread_created : Bool) (inst : Instance)
    (viewer_html : Str) (received : Option Str) : Option (List SockOp) :=
  if client_sock < 0 then some []
  else if thread_created then client_thread_func inst viewer_html received
  else some []

/-- How many times a list of socket operations closes the socket. -/
def closes (ops : List SockOp) : Nat := ops.count SockOp.close

/-- Calls with a fixed frame whose timestamps start at `t0` and are 100 ms
apart; `enc i` is the outcome of the JPEG encode of call `i`. -/
def spaced_calls (frame : Mat) (enc : Nat → Option Str) (t0 : Nat) (n : Nat) : List FrameCall :=
  (List.range n).map (fun i => { frame := frame, now := t0 + 100 * i, encoded := enc i })

/-! ## Raw snapshot prefix -/

/-- The value of `prefix` right after the `substr` call, before decoding and
checking, for a path in which `"?prefix="` was found. -/
def raw_pfx (path : Str) : Option Str :=
  let query_pos := find path "?prefix=".toList 0
  let pfx_start := size_add query_pos 8
  let pfx_end0 := find path "&".toList pfx_start
  let pfx_end := if pfx_end0 = npos then path.length else pfx_end0
  substr path pfx_start (size_sub pfx_end pfx_start)

/-! ## Steps of a frame update seen by a concurrent reader -/

/-- The assignment `latest_capture_ts_ms = capture_ts_ms` of `update_frame`,
executed before `frame_mutex` is taken. -/
def publish_ts (s : Server) (capture_ts_ms : Nat) : Server :=
  { s with latest_capture_ts_ms := capture_ts_ms }

/-- The section of `update_frame` under `frame_mutex`: the buffer swap and
the increment of the frame id. -/
def publish_frame (s : Server) (jpeg_buffer : Str) : Server :=
  { s with current_jpeg := jpeg_buffer, latest_frame_id := (s.latest_frame_id + 1) % 2 ^ 64 }

/-- The local variables `capture_ts` and `frame_id` of `send_stats_response`,
`none` until they are read. -/
structure StatsReader where
  capture_ts : Option Nat
  frame_id : Option Nat
  deriving DecidableEq, Repr

/-- The read `capture_ts = latest_capture_ts_ms`, made without the lock. -/
def stats_read_ts (s : Server) (r : StatsReader) : StatsReader :=
  { r with capture_ts := some s.latest_capture_ts_ms }

/-- The read `frame_id = latest_frame_id`, made under `frame_mutex`. -/
def stats_read_id (s : Server) (r : StatsReader) : StatsReader :=
  { r with frame_id := some s.latest_frame_id }

/-! ## Local address discovery -/

/-- One entry of the list returned by `getifaddrs`, with what the loop of
`get_local_ip` reads from it: whether `ifa_addr` is set, whether the family
is `AF_INET`, the interface name, the text `getnameinfo` gives for the
address (`none` when it fails) and the flags `IFF_UP` and `IFF_RUNNING`. -/
structure Ifaddr where
  has_addr : Bool
  is_inet : Bool
  name : Str
  host : Option Str
  is_up : Bool
  is_running : Bool
  deriving DecidableEq, Repr

/-- The test `strncmp(name, pat, strlen(pat)) == 0`. -/
def starts_with (name pat : Str) : Bool := pat.isPrefixOf name

/-- The priority computed for an interface ("计算接口优先级"). -/
def priority (ifa : Ifaddr) : Int :=
  if ifa.is_up && ifa.is_running then
    100 + (if starts_with ifa.name "wlan".toList then 20
      else if starts_with ifa.name "eth".toList then 15
      else if starts_with ifa.name "en".toList then 15
      else 5)
  else if ifa.is_up then
    50 + (if starts_with ifa.name "wlan".toList then 10
      else if starts_with ifa.name "eth".toList then 8
      else if starts_with ifa.name "en".toList then 8
      else 0)
  else 10

/-- The variables `result`, `fallback_ip` and `best_priority` of `get_local_ip`. -/
structure IpScan where
  result : Str
  fallback_ip : Str
  best_priority : Int
  deriving DecidableEq, Repr

/-- One pass of the loop of `get_local_ip`. -/
def scan_step (st : IpScan) (ifa : Ifaddr) : IpScan :=
  if !ifa.has_addr then st
  else if ifa.is_inet then
    if ifa.name = "lo".toList then st
    else
      match ifa.host with
      | none => st
      | some host =>
        let st1 :=
          if priority ifa > st.best_priority then
            { st with best_priority := priority ifa, result := host }
          else st
        if st1.fallback_ip.isEmpty && host ≠ "127.0.0.1".toList then
          { st1 with fallback_ip := host }
        else st1
  else st

/-- The function `get_local_ip`; the argument is the list returned by
`getifaddrs`, `none` when that call fails. -/
def get_local_ip (ifaddrs : Option (List Ifaddr)) : Str :=
  match ifaddrs with
  | none => "127.0.0.1".toList
  | some l =>
    let st := l.foldl scan_step
      { result := "127.0.0.1".toList, fallback_ip := [], best_priority := -1 }
    if st.result = "127.0.0.1".toList && !st.fallback_ip.isEmpty then st.fallback_ip
    else st.result

/-- The entries the loop of `get_local_ip` ranks: IPv4 entries with an
address, not named `lo`, whose address could be printed. -/
def is_candidate (ifa : Ifaddr) : Bool :=
  ifa.has_addr && ifa.is_inet && ifa.name ≠ "lo".toList && ifa.host.isSome

/-- What the scan holds after a list of entries: nothing but the initial
values when no candidate was seen, otherwise the address and priority of a
seen candidate of highest priority. -/
def scan_best (seen : List Ifaddr) (st : IpScan) : Prop :=
  ((∀ d ∈ seen, is_candidate d = false) ∧ st.best_priority = -1 ∧
      st.result = "127.0.0.1".toList) ∨
  (∃ c ∈ seen, is_candidate c = true ∧ c.host = some st.result ∧
      st.best_priority = priority c ∧
      ∀ d ∈ seen, is_candidate d = true → priority d ≤ priority c)

/-! ## Instantaneous frame-rate samples -/

end CameraStreamServer

/-! # IMU driver (libraries/zf_device/zf_device_imu.cpp) -/

namespace zf_device_imu

/-- The enumeration `imu_device_type_enum`. -/
inductive imu_device_type_enum where
  | DEV_NO_FIND
  | DEV_IMU660RA
  | DEV_IMU660RB
  | DEV_IMU660RC
  | DEV_IMU963RA
  deriving DecidableEq, Repr

open imu_device_type_enum

/-- The integer value of an enumerator. -/
def imu_device_type_enum.val : imu_device_type_enum → Int
  | DEV_NO_FIND => 0
  | DEV_IMU660RA => 1
  | DEV_IMU660RB => 2
  | DEV_IMU660RC => 3
  | DEV_IMU963RA => 4

/-- The cast `(imu_device_type_enum)read_val`. -/
def of_val (v : Int) : imu_device_type_enum :=
  if v = 1 then DEV_IMU660RA
  else if v = 2 then DEV_IMU660RB
  else if v = 3 then DEV_IMU660RC
  else if v = 4 then DEV_IMU963RA
  else DEV_NO_FIND

/-- The C function `isspace` in the "C" locale. -/
def isspace (c : Char) : Bool := c == ' ' || (9 ≤ c.toNat && c.toNat ≤ 13)

/-- The digit loop of `atoi`. -/
def atoi_digits : List Char → Int → Int
  | [], acc => acc
  | c :: cs, acc =>
    if 48 ≤ c.toNat ∧ c.toNat ≤ 57 then atoi_digits cs (acc * 10 + ((c.toNat : Int) - 48))
    else acc

/-- The C function `atoi` on the bytes of a buffer: leading white space, an
optional sign, then decimal digits (values that fit an `int`). -/
def atoi (buf : List Char) : Int :=
  match buf.dropWhile isspace with
  | '-' :: r => - atoi_digits r 0
  | '+' :: r => atoi_digits r 0
  | r => atoi_digits r 0

/-- The fields of `zf_device_imu`. -/
structure Imu where
  imu_type : imu_device_type_enum
  fd_acc_x : Int
  fd_acc_y : Int
  fd_acc_z : Int
  fd_gyro_x : Int
  fd_gyro_y : Int
  fd_gyro_z : Int
  fd_mag_x : Int
  fd_mag_y : Int
  fd_mag_z : Int
  deriving DecidableEq, Repr

/-- The constructor `zf_device_imu::zf_device_imu`. -/
def fresh : Imu :=
  { imu_type := DEV_NO_FIND
    fd_acc_x := -1, fd_acc_y := -1, fd_acc_z := -1
    fd_gyro_x := -1, fd_gyro_y := -1, fd_gyro_z := -1
    fd_mag_x := -1, fd_mag_y := -1, fd_mag_z := -1 }

/-- Outcomes of the system calls of `init`: the descriptor returned by
`open` for the event file, whether `write` returns 1, the bytes `read` gives
(`none` when it returns 0 or less), and the descriptors returned by `open`
for the nine sensor files. -/
structure ImuEnv where
  event_fd : Int
  write_ok : Bool
  event_read : Option (List Char)
  acc_x : Int
  acc_y : Int
  acc_z : Int
  gyro_x : Int
  gyro_y : Int
  gyro_z : Int
  mag_x : Int
  mag_y : Int
  mag_z : Int
  deriving DecidableEq, Repr

/-- The function `imu_close_all_fd`: all descriptors are reset. -/
def imu_close_all_fd (d : Imu) : Imu :=
  { d with
    fd_acc_x := -1, fd_acc_y := -1, fd_acc_z := -1
    fd_gyro_x := -1, fd_gyro_y := -1, fd_gyro_z := -1
    fd_mag_x := -1, fd_mag_y := -1, fd_mag_z := -1 }

/-- The function `init`: the state it leaves; the value it returns is the
field `imu_type` of that state. -/
def init (d : Imu) (env : ImuEnv) : Imu :=
  if env.event_fd < 0 then { d with imu_type := DEV_NO_FIND }
  else if !env.write_ok then { d with imu_type := DEV_NO_FIND }
  else
    let read_val : Int :=
      match env.event_read with
      | some read_buf => atoi read_buf
      | none => DEV_NO_FIND.val
    if read_val = DEV_IMU660RA.val ∨ read_val = DEV_IMU660RB.val
        ∨ read_val = DEV_IMU963RA.val then
      let d1 := { d with
        imu_type := of_val read_val
        fd_acc_x := env.acc_x, fd_acc_y := env.acc_y, fd_acc_z := env.acc_z
        fd_gyro_x := env.gyro_x, fd_gyro_y := env.gyro_y, fd_gyro_z := env.gyro_z }
      let d2 :=
        if d1.imu_type = DEV_IMU963RA then
          { d1 with fd_mag_x := env.mag_x, fd_mag_y := env.mag_y, fd_mag_z := env.mag_z }
        else d1
      if d2.imu_type = DEV_IMU660RA ∨ d2.imu_type = DEV_IMU660RB then
        if d2.fd_acc_x < 0 ∨ d2.fd_acc_y < 0 ∨ d2.fd_acc_z < 0
            ∨ d2.fd_gyro_x < 0 ∨ d2.fd_gyro_y < 0 ∨ d2.fd_gyro_z < 0 then
          { imu_close_all_fd d2 with imu_type := DEV_NO_FIND }
        else d2
      else if d2.imu_type = DEV_IMU963RA then
        if d2.fd_acc_x < 0 ∨ d2.fd_acc_y < 0 ∨ d2.fd_acc_z < 0
            ∨ d2.fd_gyro_x < 0 ∨ d2.fd_gyro_y < 0 ∨ d2.fd_gyro_z < 0
            ∨ d2.fd_mag_x < 0 ∨ d2.fd_mag_y < 0 ∨ d2.fd_mag_z < 0 then
          { imu_close_all_fd d2 with imu_type := DEV_NO_FIND }
        else d2
      else d2
    else { d with imu_type := DEV_NO_FIND }

/-- The function `get_dev_type`. -/
def get_dev_type (d : Imu) : imu_device_type_enum := d.imu_type

/-- An environment in which every `open` succeeds and the event file reads
back the given text. -/
def all_open (event_text : List Char) : ImuEnv :=
  { event_fd := 3, write_ok := true, event_read := some event_text
    acc_x := 4, acc_y := 5, acc_z := 6, gyro_x := 7, gyro_y := 8, gyro_z := 9
    mag_x := 10, mag_y := 11, mag_z := 12 }

end zf_device_imu

namespace CameraStreamServer

/-! ## Sample inputs -/

/-- An IPv4 interface entry with the given name, address and flags. -/
def iface (name host : String) (up running : Bool) : Ifaddr :=
  { has_addr := true, is_inet := true, name := name.toList, host := some host.toList,
    is_up := up, is_running := running }


/-- A call with a one-element frame whose encode succeeds. -/
def good_call : FrameCall :=
  { frame := { data := [0] }, now := 1000, encoded := some ['J'] }

/-- A call with a one-element frame at capture time `t`, encoded to one byte. -/
def call_at (t : Nat) : FrameCall :=
  { frame := { data := [0] }, now := t, encoded := some ['J'] }

/-- A call whose encode fails. -/
def failed_call : FrameCall :=
  { frame := { data := [0] }, now := 1000, encoded := none }

/-- The local time 2024-01-02 03:04:05. -/
def sample_time : Tm :=
  { tm_year := 124, tm_mon := 0, tm_mday := 2, tm_hour := 3, tm_min := 4, tm_sec := 5 }

/-- The `struct tm` of a calendar date and time of day. -/
def tm_of (year month day hour minute second : Nat) : Tm :=
  { tm_year := (year : Int) - 1900, tm_mon := (month : Int) - 1, tm_mday := day,
    tm_hour := hour, tm_min := minute, tm_sec := second }

/-- A server started on the default port from the fresh state. -/
def started : Server := (start_server fresh CAMERA_STREAM_DEFAULT_PORT (some 1)).2

/-- The started server once its thread listens on descriptor 5. -/
def listening : Server :=
  (server_thread_setup started { socket_fd := 5, bind_ok := true, listen_ok := true }).1

/-- Invariant of a stream loop running against the server: the loop has
seen no id above the current one, every id it sent is at most the last one it
recorded, and the ids it sent are strictly increasing. -/
def stream_inv (st : Server × StreamClient) : Prop :=
  st.2.last_frame_sent ≤ st.1.latest_frame_id ∧
  (∀ i ∈ sent_ids st.2, i ≤ st.2.last_frame_sent) ∧
  (sent_ids st.2).Pairwise (fun a b => a < b)

/-! ## Facts about `find` and `substr` -/

theorem find_scan_ge (pat : Str) : ∀ (s : Str) (i j : Nat),
    find_scan pat s i = some j → i ≤ j := by
  intro s
  induction s with
  | nil =>
    intro i j h
    unfold find_scan at h
    split at h
    · simp at h; omega
    · simp at h
  | cons c cs ih =>
    intro i j h
    unfold find_scan at h
    split at h
    · simp at h; omega
    · have := ih (i + 1) j h
      omega

theorem find_scan_here (pat : Str) (s : Str) (i : Nat) :
    find_scan pat s i = some i ↔ pat.isPrefixOf s = true := by
  cases s with
  | nil =>
    unfold find_scan
    split <;> simp_all
  | cons c cs =>
    unfold find_scan
    split
    · simp_all
    · rename_i hn
      constructor
      · intro h
        have := find_scan_ge pat cs (i + 1) i h
        omega
      · intro h
        exact absurd h hn

theorem find_scan_bound (pat : Str) : ∀ (s : Str) (i j : Nat),
    find_scan pat s i = some j → j + pat.length ≤ i + s.length := by
  intro s
  induction s with
  | nil =>
    intro i j h
    unfold find_scan at h
    split at h
    · rename_i hp
      have hl := (List.isPrefixOf_iff_prefix.mp hp).length_le
      injection h with h
      simp only [List.length_nil] at hl ⊢
      omega
    · simp at h
  | cons c cs ih =>
    intro i j h
    unfold find_scan at h
    split at h
    · rename_i hp
      have hl := (List.isPrefixOf_iff_prefix.mp hp).length_le
      injection h with h
      simp only [List.length_cons] at hl ⊢
      omega
    · have := ih (i + 1) j h
      simp only [List.length_cons]
      omega

/-- The test `s.find(pat) == 0` of the source is the test "`s` starts with `pat`". -/
theorem find_zero_iff (s pat : Str) : find s pat 0 = 0 ↔ pat <+: s := by
  unfold find
  simp only [Nat.not_lt_zero, if_false, List.drop_zero]
  rw [← List.isPrefixOf_iff_prefix, ← find_scan_here pat s 0]
  cases h : find_scan pat s 0 with
  | none => simp [npos]
  | some j => simp

/-- A position returned by `find` other than `npos` leaves room for the pattern. -/
theorem find_bound (s pat : Str) (pos : Nat) (h : find s pat pos ≠ npos) :
    pos ≤ find s pat pos ∧ find s pat pos + pat.length ≤ s.length := by
  unfold find at h ⊢
  split
  · rename_i hlt
    simp [hlt] at h
  · rename_i hle
    cases hf : find_scan pat (s.drop pos) pos with
    | none => simp [hle, hf] at h
    | some j =>
      simp only []
      have h1 := find_scan_ge pat _ _ _ hf
      have h2 := find_scan_bound pat _ _ _ hf
      simp at h2
      omega

theorem substr_isSome (s : Str) (pos n : Nat) (h : pos ≤ s.length) :
    substr s pos n = some ((s.drop pos).take n) := by
  unfold substr
  simp [Nat.not_lt.mpr h]

theorem substr_length_le (s p : Str) (pos n : Nat) (h : substr s pos n = some p) :
    p.length ≤ s.length := by
  unfold substr at h
  split at h
  · simp at h
  · simp at h
    subst h
    simp

theorem cstr_length_le (buf : Str) : (cstr buf).length ≤ buf.length := by
  unfold cstr
  exact (List.takeWhile_sublist _).length_le

/-- The prefix extraction never throws on a string shorter than `2 ^ 64`. -/
theorem snapshot_pfx_isSome (path : Str) (hlen : path.length < 2 ^ 64) :
    ∃ p, snapshot_pfx path = some p := by
  unfold snapshot_pfx
  simp only []
  split
  · rename_i hq
    have hb := find_bound path "?prefix=".toList 0 hq
    have h8 : "?prefix=".toList.length = 8 := by decide
    rw [h8] at hb
    have hs : size_add (find path "?prefix=".toList 0) 8 ≤ path.length := by
      unfold size_add
      rw [Nat.mod_eq_of_lt (by omega)]
      exact hb.2
    rw [substr_isSome _ _ _ hs]
    exact ⟨_, rfl⟩
  · exact ⟨_, rfl⟩

theorem parse_path_length_le (request path : Str) (h : parse_path request = some path) :
    path.length ≤ request.length :=
  substr_length_le _ _ _ _ h

/-- The branch chain, with every `find(...) == 0` test read as "starts with". -/
theorem route_eq (viewer_html path : Str) :
    route viewer_html path =
      if path = "/".toList ∨ "/viewer".toList <+: path ∨ "/?".toList <+: path then
        some (Call.send_response "text/html; charset=utf-8".toList viewer_html)
      else if "/stream".toList <+: path then some Call.send_mjpeg_stream
      else if "/stats".toList <+: path then some Call.send_stats_response
      else if "/snapshot".toList <+: path then
        (snapshot_pfx path).map Call.handle_snapshot_request
      else some (Call.send_response "text/html".toList not_found) := by
  unfold route
  simp only [find_zero_iff]
  cases snapshot_pfx path <;> rfl

/-! ## Facts about the frame counter -/

theorem update_fps_frame_id (s : Server) (t : Nat) :
    (update_fps s t).latest_frame_id = s.latest_frame_id := by
  unfold update_fps
  simp only []
  split
  · split <;> rfl
  · rfl

theorem update_fps_current_jpeg (s : Server) (t : Nat) :
    (update_fps s t).current_jpeg = s.current_jpeg := by
  unfold update_fps
  simp only []
  split
  · split <;> rfl
  · rfl

theorem update_fps_running (s : Server) (t : Nat) :
    (update_fps s t).running = s.running := by
  unfold update_fps
  simp only []
  split
  · split <;> rfl
  · rfl

/-- Effect of one `update_frame` call on the frame id. -/
theorem update_frame_id (s : Server) (c : FrameCall) :
    (update_frame s c).latest_frame_id =
      if c.ok then (s.latest_frame_id + 1) % 2 ^ 64 else s.latest_frame_id := by
  unfold update_frame FrameCall.ok
  cases hE : c.frame.empty
  · cases hJ : c.encoded
    · simp [update_fps_frame_id]
    · simp [update_fps_frame_id]
  · simp

theorem update_frame_running (s : Server) (c : FrameCall) :
    (update_frame s c).running = s.running := by
  unfold update_frame
  cases hE : c.frame.empty
  · cases hJ : c.encoded
    · simp [update_fps_running]
    · simp [update_fps_running]
  · simp

theorem update_frame_good_call_jpeg (s : Server) :
    (update_frame s good_call).current_jpeg = ['J'] := by
  unfold update_frame
  simp [good_call, Mat.empty]

theorem successes_nil : successes [] = 0 := rfl

theorem successes_cons (c : FrameCall) (cs : List FrameCall) :
    successes (c :: cs) = (if c.ok then 1 else 0) + successes cs := by
  unfold successes
  by_cases h : c.ok
  · simp [List.filter_cons, h]
    omega
  · simp [List.filter_cons, h]

theorem successes_append (xs ys : List FrameCall) :
    successes (xs ++ ys) = successes xs + successes ys := by
  unfold successes
  simp [List.filter_append]

theorem successes_replicate (c : FrameCall) (h : c.ok = true) :
    ∀ n : Nat, successes (List.replicate n c) = n := by
  intro n
  induction n with
  | zero => rfl
  | succ k ih =>
    rw [List.replicate_succ, successes_cons, ih, if_pos h]
    omega

theorem update_frames_append (s : Server) (xs ys : List FrameCall) :
    update_frames s (xs ++ ys) = update_frames (update_frames s xs) ys := by
  unfold update_frames
  exact List.foldl_append _ _ _ _

/-- The frame id after a sequence of calls: the count of successful calls is
added modulo `2 ^ 64`. -/
theorem update_frames_id : ∀ (calls : List FrameCall) (s : Server),
    s.latest_frame_id < 2 ^ 64 →
    (update_frames s calls).latest_frame_id =
      (s.latest_frame_id + successes calls) % 2 ^ 64 := by
  intro calls
  induction calls with
  | nil =>
    intro s hs
    show s.latest_frame_id = _
    rw [successes_nil, Nat.add_zero, Nat.mod_eq_of_lt hs]
  | cons c cs ih =>
    intro s hs
    have hstep : update_frames s (c :: cs) = update_frames (update_frame s c) cs := rfl
    have hid := update_frame_id s c
    rw [hstep, successes_cons]
    by_cases hok : c.ok
    · rw [if_pos hok] at hid ⊢
      rw [ih _ (by rw [hid]; exact Nat.mod_lt _ (by norm_num)), hid]
      omega
    · rw [if_neg hok] at hid ⊢
      rw [ih _ (by rw [hid]; exact hs), hid]
      omega

theorem update_frames_running (calls : List FrameCall) : ∀ s : Server,
    (update_frames s calls).running = s.running := by
  induction calls with
  | nil => intro s; rfl
  | cons c cs ih =>
    intro s
    have hstep : update_frames s (c :: cs) = update_frames (update_frame s c) cs := rfl
    rw [hstep, ih, update_frame_running]

/-! ## Facts about the stream loop -/

theorem run_append (st : Server × StreamClient) (xs ys : List Event) :
    run st (xs ++ ys) = run (run st xs) ys := by
  unfold run
  exact List.foldl_append _ _ _ _

theorem run_replicate_update (c : FrameCall) : ∀ (n : Nat) (st : Server × StreamClient),
    run st (List.replicate n (Event.update c)) =
      (update_frames st.1 (List.replicate n c), st.2) := by
  intro n
  induction n with
  | zero => intro st; rfl
  | succ k ih =>
    intro st
    rw [List.replicate_succ, List.replicate_succ]
    have h1 : run st (Event.update c :: List.replicate k (Event.update c)) =
        run (step st (Event.update c)) (List.replicate k (Event.update c)) := rfl
    rw [h1, ih]
    rfl

theorem sent_ids_stream_step (s : Server) (cl : StreamClient) (f : Option (Fin 3)) :
    (stream_step s cl f = cl ∨ (stream_step s cl f).last_frame_sent = cl.last_frame_sent ∧
        (stream_step s cl f).parts = cl.parts) ∨
    (s.latest_frame_id ≠ cl.last_frame_sent ∧
      (stream_step s cl f).last_frame_sent = s.latest_frame_id ∧
      sent_ids (stream_step s cl f) = sent_ids cl ++ [s.latest_frame_id]) := by
  unfold stream_step
  split
  · exact Or.inl (Or.inl rfl)
  · split
    · exact Or.inl (Or.inr ⟨rfl, rfl⟩)
    · split
      · exact Or.inl (Or.inl rfl)
      · split
        · exact Or.inl (Or.inl rfl)
        · rename_i hne _
          right
          cases f with
          | none => exact ⟨hne, rfl, by simp [sent_ids]⟩
          | some k => exact ⟨hne, rfl, by simp [sent_ids]⟩

/-- One event keeps the invariant, provided the counter does not wrap on it. -/
theorem step_inv (st : Server × StreamClient) (e : Event) (hinv : stream_inv st)
    (hroom : st.1.latest_frame_id + successes (updates_of [e]) < 2 ^ 64) :
    stream_inv (step st e) ∧
    (step st e).1.latest_frame_id = st.1.latest_frame_id + successes (updates_of [e]) := by
  obtain ⟨h1, h2, h3⟩ := hinv
  cases e with
  | update c =>
    have hu : updates_of [Event.update c] = [c] := rfl
    rw [hu, successes_cons, successes_nil, Nat.add_zero] at hroom ⊢
    have hid := update_frame_id st.1 c
    have hid2 : (update_frame st.1 c).latest_frame_id =
        st.1.latest_frame_id + (if c.ok then 1 else 0) := by
      rw [hid]
      by_cases hok : c.ok
      · rw [if_pos hok] at hroom ⊢
        rw [if_pos hok]
        exact Nat.mod_eq_of_lt hroom
      · rw [if_neg hok, if_neg hok]
        rfl
    refine ⟨⟨?_, h2, h3⟩, hid2⟩
    show st.2.last_frame_sent ≤ (update_frame st.1 c).latest_frame_id
    omega
  | stream f =>
    have hu : updates_of [Event.stream f] = [] := rfl
    rw [hu, successes_nil, Nat.add_zero]
    refine ⟨?_, rfl⟩
    show (stream_step st.1 st.2 f).last_frame_sent ≤ st.1.latest_frame_id ∧
      (∀ i ∈ sent_ids (stream_step st.1 st.2 f), i ≤ (stream_step st.1 st.2 f).last_frame_sent) ∧
      (sent_ids (stream_step st.1 st.2 f)).Pairwise (fun a b => a < b)
    rcases sent_ids_stream_step st.1 st.2 f with (heq | ⟨hl, hp⟩) | ⟨hne, hl, hs⟩
    · rw [heq]; exact ⟨h1, h2, h3⟩
    · have hs : sent_ids (stream_step st.1 st.2 f) = sent_ids st.2 := by
        unfold sent_ids; rw [hp]
      rw [hl, hs]; exact ⟨h1, h2, h3⟩
    · rw [hl, hs]
      have hlt : st.2.last_frame_sent < st.1.latest_frame_id := by omega
      refine ⟨Nat.le_refl _, ?_, ?_⟩
      · intro i hi
        rcases List.mem_append.mp hi with hi | hi
        · exact Nat.le_of_lt (Nat.lt_of_le_of_lt (h2 i hi) hlt)
        · rw [List.mem_singleton.mp hi]
      · rw [List.pairwise_append]
        refine ⟨h3, List.pairwise_singleton _ _, ?_⟩
        intro a ha b hb
        rw [List.mem_singleton.mp hb]
        exact Nat.lt_of_le_of_lt (h2 a ha) hlt

/-- A step of a running loop that sees a new id and a non-empty buffer sends
that id. -/
theorem stream_step_sends (s : Server) (cl : StreamClient) (f : Option (Fin 3))
    (hd : cl.done = false) (hr : s.running = true)
    (hne : s.latest_frame_id ≠ cl.last_frame_sent) (hj : s.current_jpeg ≠ []) :
    sent_ids (stream_step s cl f) = sent_ids cl ++ [s.latest_frame_id] := by
  have hj2 : s.current_jpeg.isEmpty = false := by
    cases h : s.current_jpeg with
    | nil => exact absurd h hj
    | cons a l => rfl
  unfold stream_step
  rw [if_neg (by rw [hd]; decide), if_neg (by rw [hr]; decide), if_neg hne,
    if_neg (by rw [hj2]; decide)]
  cases f <;> simp [sent_ids]

/-- After a step in which all three sends succeed the loop goes on, and it
has recorded the id it sent. -/
theorem stream_step_none (s : Server) (cl : StreamClient)
    (hd : cl.done = false) (hr : s.running = true)
    (hne : s.latest_frame_id ≠ cl.last_frame_sent) (hj : s.current_jpeg ≠ []) :
    (stream_step s cl none).done = false ∧
    (stream_step s cl none).last_frame_sent = s.latest_frame_id := by
  have hj2 : s.current_jpeg.isEmpty = false := by
    cases h : s.current_jpeg with
    | nil => exact absurd h hj
    | cons a l => rfl
  unfold stream_step
  rw [if_neg (by rw [hd]; decide), if_neg (by rw [hr]; decide), if_neg hne,
    if_neg (by rw [hj2]; decide)]
  exact ⟨hd, rfl⟩

theorem run_single (st : Server × StreamClient) (e : Event) : run st [e] = step st e := rfl

theorem step_stream_snd (s : Server) (cl : StreamClient) (f : Option (Fin 3)) :
    (step (s, cl) (Event.stream f)).2 = stream_step s cl f := rfl

theorem updates_of_cons (e : Event) (es : List Event) :
    successes (updates_of (e :: es)) = successes (updates_of [e]) + successes (updates_of es) := by
  cases e with
  | update c =>
    show successes (c :: updates_of es) = successes [c] + _
    rw [successes_cons, successes_cons, successes_nil, Nat.add_zero]
  | stream f =>
    show successes (updates_of es) = successes [] + _
    rw [successes_nil, Nat.zero_add]

/-- The invariant holds along every interleaving on which the counter does
not wrap. -/
theorem run_inv : ∀ (evs : List Event) (st : Server × StreamClient), stream_inv st →
    st.1.latest_frame_id + successes (updates_of evs) < 2 ^ 64 →
    stream_inv (run st evs) := by
  intro evs
  induction evs with
  | nil => intro st h _; exact h
  | cons e es ih =>
    intro st hinv hroom
    rw [updates_of_cons] at hroom
    have hstep := step_inv st e hinv (by omega)
    have hrun : run st (e :: es) = run (step st e) es := rfl
    rw [hrun]
    exact ih _ hstep.1 (by rw [hstep.2]; omega)

/-! ## Facts about decimal printing -/

theorem toDigitsCore_acc : ∀ (f n : Nat) (ds : List Char),
    Nat.toDigitsCore 10 f n ds = Nat.toDigitsCore 10 f n [] ++ ds := by
  intro f
  induction f with
  | zero => intro n ds; simp [Nat.toDigitsCore]
  | succ k ih =>
    intro n ds
    simp only [Nat.toDigitsCore]
    split
    · simp
    · rw [ih _ (_ :: ds), ih _ [_]]
      simp

theorem toDigitsCore_unroll (k n : Nat) :
    Nat.toDigitsCore 10 (k + 1) n [] =
      if n < 10 then [Nat.digitChar n]
      else Nat.toDigitsCore 10 k (n / 10) [] ++ [Nat.digitChar (n % 10)] := by
  simp only [Nat.toDigitsCore]
  by_cases h : n < 10
  · rw [if_pos h, if_pos (Nat.div_eq_of_lt h), Nat.mod_eq_of_lt h]
  · rw [if_neg h, if_neg (by omega), toDigitsCore_acc]

theorem toDigitsCore_fuel : ∀ (n f : Nat), n < f →
    Nat.toDigitsCore 10 f n [] = utoa n := by
  intro n
  induction n using Nat.strong_induction_on with
  | _ n ih =>
    intro f hf
    obtain ⟨k, rfl⟩ : ∃ k, f = k + 1 := ⟨f - 1, by omega⟩
    show _ = Nat.toDigitsCore 10 (n + 1) n []
    rw [toDigitsCore_unroll, toDigitsCore_unroll]
    by_cases h : n < 10
    · rw [if_pos h, if_pos h]
    · rw [if_neg h, if_neg h, ih (n / 10) (by omega) k (by omega),
        ih (n / 10) (by omega) n (by omega)]

theorem utoa_lt_ten (n : Nat) (h : n < 10) : utoa n = [Nat.digitChar n] := by
  show Nat.toDigitsCore 10 (n + 1) n [] = _
  rw [toDigitsCore_unroll, if_pos h]

theorem utoa_step (n : Nat) (h : 10 ≤ n) :
    utoa n = utoa (n / 10) ++ [Nat.digitChar (n % 10)] := by
  show Nat.toDigitsCore 10 (n + 1) n [] = _
  rw [toDigitsCore_unroll, if_neg (by omega), toDigitsCore_fuel _ _ (by omega)]

theorem utoa_two (n : Nat) (h1 : 10 ≤ n) (h2 : n < 100) :
    utoa n = [Nat.digitChar (n / 10), Nat.digitChar (n % 10)] := by
  rw [utoa_step n h1, utoa_lt_ten (n / 10) (by omega)]
  rfl

theorem utoa_three (n : Nat) (h1 : 100 ≤ n) (h2 : n < 1000) :
    utoa n = [Nat.digitChar (n / 100), Nat.digitChar (n / 10 % 10), Nat.digitChar (n % 10)] := by
  rw [utoa_step n (by omega), utoa_two (n / 10) (by omega) (by omega)]
  have h : n / 10 / 10 = n / 100 := by omega
  rw [h]
  rfl

theorem utoa_four (n : Nat) (h1 : 1000 ≤ n) (h2 : n < 10000) :
    utoa n = [Nat.digitChar (n / 1000), Nat.digitChar (n / 100 % 10),
      Nat.digitChar (n / 10 % 10), Nat.digitChar (n % 10)] := by
  rw [utoa_step n (by omega), utoa_three (n / 10) (by omega) (by omega)]
  have h : n / 10 / 100 = n / 1000 := by omega
  have h' : n / 10 / 10 % 10 = n / 100 % 10 := by omega
  rw [h, h']
  rfl

/-- Two-digit zero-padded printing of a number below 100. -/
theorem zero_pad_two (n : Nat) (h : n < 100) :
    zero_pad 2 (utoa n) = [Nat.digitChar (n / 10), Nat.digitChar (n % 10)] := by
  by_cases h1 : n < 10
  · have e1 : n / 10 = 0 := by omega
    have e2 : n % 10 = n := by omega
    rw [utoa_lt_ten n h1, e1, e2]
    rfl
  · rw [utoa_two n (by omega) h]
    rfl

/-- Four-digit zero-padded printing of a number below 10000. -/
theorem zero_pad_four (n : Nat) (h : n < 10000) :
    zero_pad 4 (utoa n) = [Nat.digitChar (n / 1000), Nat.digitChar (n / 100 % 10),
      Nat.digitChar (n / 10 % 10), Nat.digitChar (n % 10)] := by
  by_cases h1 : n < 10
  · have e1 : n / 1000 = 0 := by omega
    have e2 : n / 100 % 10 = 0 := by omega
    have e3 : n / 10 % 10 = 0 := by omega
    have e4 : n % 10 = n := by omega
    rw [utoa_lt_ten n h1, e1, e2, e3, e4]
    rfl
  · by_cases h2 : n < 100
    · have e1 : n / 1000 = 0 := by omega
      have e2 : n / 100 % 10 = 0 := by omega
      have e3 : n / 10 % 10 = n / 10 := by omega
      rw [utoa_two n (by omega) h2, e1, e2, e3]
      rfl
    · by_cases h3 : n < 1000
      · have e1 : n / 1000 = 0 := by omega
        have e2 : n / 100 % 10 = n / 100 := by omega
        rw [utoa_three n (by omega) h3, e1, e2]
        rfl
      · rw [utoa_four n (by omega) h]
        rfl

theorem fmt_d_nat (width n : Nat) : fmt_d width (n : Int) = zero_pad width (utoa n) := by
  unfold fmt_d
  rw [if_neg (by omega), Int.toNat_ofNat]

/-! ## Facts about the character class -/

/-- The test of the validity loop for one character. -/
theorem char_ok_of_mem : ∀ c ∈ allowed_chars,
    (!isalnum c && c != '_' && c != '-') = false := by
  decide

theorem mem_of_char_ok (c : Char) (h : (!isalnum c && c != '_' && c != '-') = false) :
    c ∈ allowed_chars := by
  have hc : c = Char.ofNat c.toNat := (Char.ofNat_toNat c).symm
  simp only [isalnum, Bool.and_eq_false_iff, Bool.not_eq_false',
    Bool.or_eq_true, Bool.and_eq_true, decide_eq_true_eq, bne_eq_false_iff_eq] at h
  rcases h with (((⟨h1, h2⟩ | ⟨h1, h2⟩) | ⟨h1, h2⟩) | h) | h
  · rw [hc]; interval_cases c.toNat <;> decide
  · rw [hc]; interval_cases c.toNat <;> decide
  · rw [hc]; interval_cases c.toNat <;> decide
  · rw [h]; decide
  · rw [h]; decide

/-- The validity loop accepts exactly the strings over `[A-Za-z0-9_-]`. -/
theorem pfx_valid_iff (p : Str) : pfx_valid p = true ↔ ∀ c ∈ p, c ∈ allowed_chars := by
  induction p with
  | nil => simp [pfx_valid]
  | cons c cs ih =>
    unfold pfx_valid
    constructor
    · intro h
      split at h
      · exact absurd h (by simp)
      · rename_i hc
        intro x hx
        rcases List.mem_cons.mp hx with rfl | hx
        · exact mem_of_char_ok x (by simpa using hc)
        · exact ih.mp h x hx
    · intro h
      have hc := char_ok_of_mem c (h c (List.mem_cons_self _ _))
      rw [hc]
      simp only [Bool.false_eq_true, if_false]
      exact ih.mpr (fun x hx => h x (List.mem_cons_of_mem _ hx))

/-- The sanitised value is never empty and lies in the class. -/
theorem sanitize_valid (p : Str) :
    sanitize p ≠ [] ∧ ∀ c ∈ sanitize p, c ∈ allowed_chars := by
  unfold sanitize
  split
  · exact ⟨by decide, by decide⟩
  · rename_i h
    simp only [Bool.or_eq_true, Bool.not_eq_true', List.isEmpty_iff, not_or,
      Bool.not_eq_false] at h
    exact ⟨h.2, (pfx_valid_iff p).mp h.1⟩

theorem cstr_of_allowed (p : Str) (h : ∀ c ∈ p, c ∈ allowed_chars) : cstr p = p := by
  unfold cstr
  rw [List.takeWhile_eq_self_iff]
  intro c hc
  have hn : ∀ x ∈ allowed_chars, (x != Char.ofNat 0) = true := by decide
  exact hn c (h c hc)

theorem digitChar_ne_nul (n : Nat) : (Nat.digitChar n != Char.ofNat 0) = true := by
  by_cases h : n < 16
  · interval_cases n <;> decide
  · unfold Nat.digitChar
    iterate 16 rw [if_neg (by omega)]
    decide

/-- A buffer without a NUL byte is read back whole as a C string. -/
theorem cstr_of_all (l : Str) (h : l.all (fun c => c != Char.ofNat 0) = true) : cstr l = l := by
  unfold cstr
  rw [List.takeWhile_eq_self_iff]
  exact fun c hc => List.all_eq_true.mp h c hc

theorem allowed_all_ne_nul (p : Str) (hp : ∀ c ∈ p, c ∈ allowed_chars) :
    p.all (fun c => c != Char.ofNat 0) = true := by
  rw [List.all_eq_true]
  intro c hc
  have hn : ∀ x ∈ allowed_chars, (x != Char.ofNat 0) = true := by decide
  exact hn c (hp c hc)

/-! ## Facts about the frame-rate estimate -/

/-- The sample computed by `update_fps` from a time difference. -/
theorem update_fps_spec (s : Server) (t : Nat) :
    (update_fps s t).last_capture_ts_local = t ∧
    (update_fps s t).latest_frame_id = s.latest_frame_id ∧
    (update_fps s t).current_jpeg = s.current_jpeg ∧
    (update_fps s t).latest_capture_ts_ms = s.latest_capture_ts_ms ∧
    (update_fps s t).original_frame = s.original_frame ∧
    ((s.last_capture_ts_local = 0 ∨ u64_sub t s.last_capture_ts_local = 0) →
      (update_fps s t).ema_fps = s.ema_fps ∧
      (update_fps s t).local_fps_estimate = s.local_fps_estimate) ∧
    (s.last_capture_ts_local ≠ 0 → 0 < u64_sub t s.last_capture_ts_local →
      (update_fps s t).ema_fps = (update_fps s t).local_fps_estimate ∧
      (update_fps s t).local_fps_estimate =
        if s.local_fps_estimate ≤ 0 then 1000 / (u64_sub t s.last_capture_ts_local : Rat)
        else (85 / 100) * s.local_fps_estimate
          + (15 / 100) * (1000 / (u64_sub t s.last_capture_ts_local : Rat))) := by
  unfold update_fps
  simp only []
  by_cases h0 : s.last_capture_ts_local ≠ 0
  · rw [if_pos h0]
    by_cases hd : u64_sub t s.last_capture_ts_local > 0
    · rw [if_pos hd]
      refine ⟨trivial, rfl, rfl, rfl, rfl, ?_, ?_⟩
      · rintro (h | h)
        · exact absurd h h0
        · omega
      · intro _ _
        exact ⟨rfl, rfl⟩
    · rw [if_neg hd]
      refine ⟨trivial, rfl, rfl, rfl, rfl, fun _ => ⟨rfl, rfl⟩, ?_⟩
      intro _ hpos
      exact absurd hpos hd
  · rw [if_neg h0]
    refine ⟨trivial, rfl, rfl, rfl, rfl, fun _ => ⟨rfl, rfl⟩, ?_⟩
    intro hne
    exact absurd hne h0

/-- On a non-empty frame the frame-rate fields after `update_frame` are those
after `update_fps` at the capture time. -/
theorem update_frame_fps (s : Server) (c : FrameCall) (hf : c.frame.empty = false) :
    (update_frame s c).ema_fps =
      (update_fps { s with original_frame := c.frame } (c.now % 2 ^ 64)).ema_fps ∧
    (update_frame s c).local_fps_estimate =
      (update_fps { s with original_frame := c.frame } (c.now % 2 ^ 64)).local_fps_estimate ∧
    (update_frame s c).last_capture_ts_local = c.now % 2 ^ 64 := by
  unfold update_frame
  rw [if_neg (by rw [hf]; decide)]
  simp only []
  have ht := (update_fps_spec { s with original_frame := c.frame } (c.now % 2 ^ 64)).1
  cases c.encoded with
  | none => exact ⟨rfl, rfl, ht⟩
  | some j => exact ⟨rfl, rfl, ht⟩

/-- The reported estimate and the running estimate agree in every state
reached from the fresh one by `update_frame` calls. -/
theorem update_frame_ema_eq (s : Server) (c : FrameCall)
    (h : s.ema_fps = s.local_fps_estimate) :
    (update_frame s c).ema_fps = (update_frame s c).local_fps_estimate := by
  cases hf : c.frame.empty with
  | true =>
    unfold update_frame
    rw [if_pos hf]
    exact h
  | false =>
    obtain ⟨h1, h2, _⟩ := update_frame_fps s c hf
    rw [h1, h2]
    have hs := update_fps_spec { s with original_frame := c.frame } (c.now % 2 ^ 64)
    by_cases h0 : s.last_capture_ts_local ≠ 0 ∧ 0 < u64_sub (c.now % 2 ^ 64) s.last_capture_ts_local
    · exact (hs.2.2.2.2.2.2 h0.1 h0.2).1
    · have h0' : s.last_capture_ts_local = 0 ∨
          u64_sub (c.now % 2 ^ 64) s.last_capture_ts_local = 0 := by
        by_cases hz : s.last_capture_ts_local = 0
        · exact Or.inl hz
        · right
          by_contra hne
          exact h0 ⟨hz, Nat.pos_of_ne_zero hne⟩
      obtain ⟨e1, e2⟩ := hs.2.2.2.2.2.1 h0'
      rw [e1, e2]
      exact h

theorem update_frames_ema_eq (calls : List FrameCall) : ∀ s : Server,
    s.ema_fps = s.local_fps_estimate →
    (update_frames s calls).ema_fps = (update_frames s calls).local_fps_estimate := by
  induction calls with
  | nil => intro s h; exact h
  | cons c cs ih =>
    intro s h
    exact ih _ (update_frame_ema_eq s c h)

theorem u64_sub_of_lt (a b : Nat) (hab : b ≤ a) (ha : a < 2 ^ 64) : u64_sub a b = a - b := by
  unfold u64_sub
  have hb : b % 2 ^ 64 = b := Nat.mod_eq_of_lt (by omega)
  rw [Nat.mod_eq_of_lt ha, hb]
  omega

theorem u64_sub_self (a : Nat) : u64_sub a a = 0 := by
  unfold u64_sub
  omega

/-- A call on a non-empty frame when no earlier capture time is recorded:
the estimate is left as it is. -/
theorem update_frame_first (s : Server) (c : FrameCall) (hf : c.frame.empty = false)
    (h0 : s.last_capture_ts_local = 0) :
    (update_frame s c).ema_fps = s.ema_fps ∧
    (update_frame s c).local_fps_estimate = s.local_fps_estimate ∧
    (update_frame s c).last_capture_ts_local = c.now % 2 ^ 64 := by
  obtain ⟨h1, h2, h3⟩ := update_frame_fps s c hf
  obtain ⟨e1, e2⟩ :=
    (update_fps_spec { s with original_frame := c.frame } (c.now % 2 ^ 64)).2.2.2.2.2.1
      (Or.inl h0)
  exact ⟨h1.trans e1, h2.trans e2, h3⟩

/-- A call on a non-empty frame at a later time than the recorded one: the
estimate is seeded with the sample when it is not positive, blended with
it otherwise. -/
theorem update_frame_sample (s : Server) (c : FrameCall) (hf : c.frame.empty = false)
    (h0 : s.last_capture_ts_local ≠ 0) (hlt : s.last_capture_ts_local < c.now)
    (hnow : c.now < 2 ^ 64) :
    (update_frame s c).ema_fps = (update_frame s c).local_fps_estimate ∧
    (update_frame s c).local_fps_estimate =
      (if s.local_fps_estimate ≤ 0 then
        1000 / ((c.now - s.last_capture_ts_local : Nat) : Rat)
      else (85 / 100) * s.local_fps_estimate
        + (15 / 100) * (1000 / ((c.now - s.last_capture_ts_local : Nat) : Rat))) ∧
    (update_frame s c).last_capture_ts_local = c.now := by
  obtain ⟨h1, h2, h3⟩ := update_frame_fps s c hf
  have hmod : c.now % 2 ^ 64 = c.now := Nat.mod_eq_of_lt hnow
  rw [hmod] at h1 h2 h3
  have hsub : u64_sub c.now s.last_capture_ts_local = c.now - s.last_capture_ts_local :=
    u64_sub_of_lt _ _ (Nat.le_of_lt hlt) hnow
  obtain ⟨e1, e2⟩ :=
    (update_fps_spec { s with original_frame := c.frame } c.now).2.2.2.2.2.2 h0
      (by show 0 < u64_sub c.now s.last_capture_ts_local; rw [hsub]; omega)
  rw [h1, h2, e1, e2]
  refine ⟨rfl, ?_, h3⟩
  show (if s.local_fps_estimate ≤ 0 then
      1000 / ((u64_sub c.now s.last_capture_ts_local : Nat) : Rat)
    else (85 / 100) * s.local_fps_estimate
      + (15 / 100) * (1000 / ((u64_sub c.now s.last_capture_ts_local : Nat) : Rat))) = _
  rw [hsub]

/-- State of the estimator after `n + 1` calls spaced 100 ms apart, made on a
server that has taken no sample yet. -/
theorem spaced_calls_state (s : Server) (frame : Mat) (enc : Nat → Option Str) (t0 : Nat)
    (hs : s.last_capture_ts_local = 0 ∧ s.local_fps_estimate = 0 ∧ s.ema_fps = 0)
    (hf : frame.empty = false) (ht0 : 0 < t0) :
    ∀ n : Nat, t0 + 100 * (n + 1) < 2 ^ 64 →
      (update_frames s (spaced_calls frame enc t0 (n + 1))).last_capture_ts_local
        = t0 + 100 * n ∧
      (update_frames s (spaced_calls frame enc t0 (n + 1))).local_fps_estimate
        = (if n = 0 then 0 else 10) ∧
      (update_frames s (spaced_calls frame enc t0 (n + 1))).ema_fps
        = (if n = 0 then 0 else 10) := by
  have hsucc : ∀ k, spaced_calls frame enc t0 (k + 1) =
      spaced_calls frame enc t0 k ++ [{ frame := frame, now := t0 + 100 * k, encoded := enc k }] := by
    intro k
    unfold spaced_calls
    rw [List.range_succ, List.map_append]
    rfl
  intro n
  induction n with
  | zero =>
    intro hb
    have h1 : spaced_calls frame enc t0 1 = [{ frame := frame, now := t0, encoded := enc 0 }] := rfl
    rw [h1]
    show (update_frame s _).last_capture_ts_local = _ ∧
      (update_frame s _).local_fps_estimate = _ ∧ (update_frame s _).ema_fps = _
    obtain ⟨a, b, c⟩ := update_frame_first s
      { frame := frame, now := t0, encoded := enc 0 } hf hs.1
    refine ⟨?_, ?_, ?_⟩
    · rw [c]
      show t0 % 2 ^ 64 = t0 + 100 * 0
      rw [Nat.mod_eq_of_lt (by omega)]
      rfl
    · rw [b, hs.2.1]; rfl
    · rw [a, hs.2.2]; rfl
  | succ k ih =>
    intro hb
    obtain ⟨il, ie, _⟩ := ih (by omega)
    rw [hsucc (k + 1), update_frames_append]
    show (update_frame _ _).last_capture_ts_local = _ ∧
      (update_frame _ _).local_fps_estimate = _ ∧ (update_frame _ _).ema_fps = _
    obtain ⟨a, b, c⟩ := update_frame_sample
      (update_frames s (spaced_calls frame enc t0 (k + 1)))
      { frame := frame, now := t0 + 100 * (k + 1), encoded := enc (k + 1) } hf
      (by rw [il]; omega) (by rw [il]; show t0 + 100 * k < t0 + 100 * (k + 1); omega)
      (by show t0 + 100 * (k + 1) < 2 ^ 64; omega)
    have hdelta : (t0 + 100 * (k + 1) - (t0 + 100 * k) : Nat) = 100 := by omega
    have hval : (update_frame (update_frames s (spaced_calls frame enc t0 (k + 1)))
        { frame := frame, now := t0 + 100 * (k + 1), encoded := enc (k + 1) }).local_fps_estimate
        = 10 := by
      rw [b, il, ie]
      show (if (if k = 0 then (0 : Rat) else 10) ≤ 0 then
          1000 / ((t0 + 100 * (k + 1) - (t0 + 100 * k) : Nat) : Rat)
        else (85 / 100) * (if k = 0 then (0 : Rat) else 10)
          + (15 / 100) * (1000 / ((t0 + 100 * (k + 1) - (t0 + 100 * k) : Nat) : Rat))) = 10
      rw [hdelta]
      by_cases hk : k = 0
      · simp only [hk, if_true, le_refl]
        norm_num
      · simp only [hk, if_false]
        norm_num
    refine ⟨c, ?_, ?_⟩
    · rw [hval]; simp
    · rw [a, hval]; simp

/-- Calls spaced 100 ms apart from time 0: the first call, then calls spaced
100 ms apart from time 100. -/
theorem spaced_calls_zero (frame : Mat) (enc : Nat → Option Str) (m : Nat) :
    spaced_calls frame enc 0 (m + 1) =
      { frame := frame, now := 0, encoded := enc 0 }
        :: spaced_calls frame (fun i => enc (i + 1)) 100 m := by
  unfold spaced_calls
  rw [List.range_succ_eq_map, List.map_cons, List.map_map]
  congr 1
  apply List.map_congr_left
  intro i _
  show FrameCall.mk frame (0 + 100 * (i + 1)) (enc (i + 1)) =
    FrameCall.mk frame (100 + 100 * i) (enc (i + 1))
  congr 1
  omega

/-! ## Facts about path extraction -/

/-- Searching for a space skips a run of characters that holds none. -/
theorem find_scan_space (m : Str) (hm : ∀ c ∈ m, c ≠ ' ') : ∀ (rest : Str) (i : Nat),
    find_scan [' '] (m ++ ' ' :: rest) i = some (i + m.length) := by
  induction m with
  | nil =>
    intro rest i
    show find_scan [' '] (' ' :: rest) i = _
    unfold find_scan
    simp [List.isPrefixOf]
  | cons c cs ih =>
    intro rest i
    show find_scan [' '] (c :: (cs ++ ' ' :: rest)) i = _
    unfold find_scan
    have hc : c ≠ ' ' := hm c (List.mem_cons_self _ _)
    have hp : List.isPrefixOf [' '] (c :: (cs ++ ' ' :: rest)) = false := by
      simp [List.isPrefixOf, Ne.symm hc]
    rw [hp]
    simp only [Bool.false_eq_true, if_false]
    rw [ih (fun x hx => hm x (List.mem_cons_of_mem _ hx))]
    simp only [List.length_cons]
    congr 1
    omega

theorem size_add_small (a b : Nat) (h : a + b < 2 ^ 64) : size_add a b = a + b :=
  Nat.mod_eq_of_lt h

theorem size_sub_small (a b : Nat) (hab : b ≤ a) (ha : a < 2 ^ 64) : size_sub a b = a - b := by
  unfold size_sub
  have hb : b % 2 ^ 64 = b := Nat.mod_eq_of_lt (by omega)
  rw [hb]
  omega

/-- Path extraction never throws on a request shorter than `2 ^ 64 - 1`. -/
theorem parse_path_isSome (request : Str) (hlen : request.length < 2 ^ 64 - 1) :
    ∃ path, parse_path request = some path := by
  unfold parse_path
  simp only []
  have hstart : size_add (find request " ".toList 0) 1 ≤ request.length := by
    by_cases hf : find request " ".toList 0 = npos
    · rw [hf]
      have : size_add npos 1 = 0 := by decide
      rw [this]
      exact Nat.zero_le _
    · have hb := (find_bound request " ".toList 0 hf).2
      have h1 : " ".toList.length = 1 := rfl
      rw [h1] at hb
      rw [size_add_small _ _ (by omega)]
      exact hb
  rw [substr_isSome _ _ _ hstart]
  exact ⟨_, rfl⟩

theorem route_isSome (viewer_html path : Str) (hlen : path.length < 2 ^ 64) :
    ∃ c, route viewer_html path = some c := by
  obtain ⟨p, hp⟩ := snapshot_pfx_isSome path hlen
  rw [route_eq, hp]
  split
  · exact ⟨_, rfl⟩
  · split
    · exact ⟨_, rfl⟩
    · split
      · exact ⟨_, rfl⟩
      · split
        · exact ⟨_, rfl⟩
        · exact ⟨_, rfl⟩

/-- A handler thread that runs closes its socket exactly once, whatever it
received and whether or not a server instance is registered. -/
theorem client_thread_closes_once (inst : Instance) (viewer_html : Str) (received : Option Str)
    (hbuf : ∀ buf, received = some buf → buf.length ≤ 4095) :
    ∃ ops, client_thread_func inst viewer_html received = some ops ∧ closes ops = 1 := by
  unfold client_thread_func
  split
  · unfold handle_client_request
    cases received with
    | none => exact ⟨_, rfl, rfl⟩
    | some buf =>
      have hb := hbuf buf rfl
      have hc := cstr_length_le buf
      obtain ⟨path, hpath⟩ := parse_path_isSome (cstr buf) (by omega)
      have hpl := parse_path_length_le _ _ hpath
      obtain ⟨c, hc2⟩ := route_isSome viewer_html path (by omega)
      simp only [hpath, hc2]
      exact ⟨_, rfl, by simp [closes]⟩
  · exact ⟨_, rfl, rfl⟩

/-! ## Facts about multipart parts -/

theorem utoa_length_le (n : Nat) (h : n < 2 ^ 64) : (utoa n).length ≤ 20 := by
  unfold utoa Nat.toDigits
  exact Nat.toDigitsCore_length 10 (by decide) (n + 1) n 20
    (Nat.lt_of_lt_of_le h (by norm_num)) (by decide)

/-- The part header fits the 256-byte `boundary` buffer. -/
theorem mjpeg_part_eq (jpeg : Str) (hn : jpeg.length < 2 ^ 64) :
    mjpeg_part jpeg =
      [ "--frame\r\nContent-Type: image/jpeg\r\nContent-Length: ".toList
          ++ Nat.toDigits 10 jpeg.length ++ "\r\n\r\n".toList,
        jpeg, "\r\n".toList ] := by
  unfold mjpeg_part
  have hlen := utoa_length_le jpeg.length hn
  have h1 : "--frame\r\nContent-Type: image/jpeg\r\nContent-Length: ".toList.length = 51 := by
    decide
  have h2 : "\r\n\r\n".toList.length = 4 := by decide
  rw [List.take_of_length_le (by
    simp only [List.length_append, h1, h2]
    omega)]
  rfl

/-- The rounding picks a nearest integer, and the even one of the two when the
value lies half-way between them. -/
theorem round_half_even_spec (q : Rat) (hq : 0 ≤ q) :
    |(round_half_even q : Rat) - q| ≤ 1 / 2 ∧
    (|(round_half_even q : Rat) - q| = 1 / 2 → round_half_even q % 2 = 0) := by
  have hfl : q.floor = ⌊q⌋ := rfl
  have h0 : 0 ≤ ⌊q⌋ := Int.floor_nonneg.mpr hq
  have hcast : ((q.floor.toNat : Nat) : Rat) = ((⌊q⌋ : Int) : Rat) := by
    rw [hfl]
    have : ((⌊q⌋.toNat : Nat) : Int) = ⌊q⌋ := Int.toNat_of_nonneg h0
    exact_mod_cast this
  have hle : ((⌊q⌋ : Int) : Rat) ≤ q := Int.floor_le q
  have hlt : q < ((⌊q⌋ : Int) : Rat) + 1 := Int.lt_floor_add_one q
  unfold round_half_even
  simp only []
  rw [← hcast] at hle hlt
  generalize q.floor.toNat = f at hle hlt ⊢
  by_cases h1 : q - (f : Rat) < 1 / 2
  · rw [if_pos h1]
    have habs : |(f : Rat) - q| = q - f := by
      rw [abs_sub_comm, abs_of_nonneg (by linarith)]
    rw [habs]
    exact ⟨le_of_lt h1, fun h => absurd h (ne_of_lt h1)⟩
  · rw [if_neg h1]
    by_cases h2 : 1 / 2 < q - (f : Rat)
    · rw [if_pos h2]
      have habs : |((f + 1 : Nat) : Rat) - q| = (f : Rat) + 1 - q := by
        push_cast
        rw [abs_of_nonneg (by linarith)]
      rw [habs]
      exact ⟨by linarith, fun h => by linarith⟩
    · rw [if_neg h2]
      have hr : q - (f : Rat) = 1 / 2 := le_antisymm (not_lt.mp h2) (not_lt.mp h1)
      by_cases h3 : f % 2 = 0
      · rw [if_pos h3]
        have habs : |(f : Rat) - q| = q - f := by
          rw [abs_sub_comm, abs_of_nonneg (by linarith)]
        rw [habs]
        exact ⟨le_of_eq hr, fun _ => h3⟩
      · rw [if_neg h3]
        have habs : |((f + 1 : Nat) : Rat) - q| = (f : Rat) + 1 - q := by
          push_cast
          rw [abs_of_nonneg (by linarith)]
        rw [habs]
        exact ⟨by linarith, fun _ => by omega⟩

/-- Printing with two decimals prints the hundredths count nearest to the
magnitude of the value (the even one at a tie): a sign, the integer part, a
point and exactly two digits. -/
theorem fmt_fixed2_value (q : Rat) :
    ∃ (h : Nat), fmt_fixed2 q =
      (if q < 0 then ['-'] else []) ++ Nat.toDigits 10 (h / 100)
        ++ ['.', Nat.digitChar (h % 100 / 10), Nat.digitChar (h % 100 % 10)] ∧
      |(h : Rat) - |q| * 100| ≤ 1 / 2 ∧
      (|(h : Rat) - |q| * 100| = 1 / 2 → h % 2 = 0) := by
  have habs : (if q < 0 then -q else q) = |q| := by
    by_cases h : q < 0
    · rw [if_pos h, abs_of_neg h]
    · rw [if_neg h, abs_of_nonneg (not_lt.mp h)]
  refine ⟨round_half_even ((if q < 0 then -q else q) * 100), ?_, ?_⟩
  · unfold fmt_fixed2
    simp only []
    rw [zero_pad_two _ (Nat.mod_lt _ (by decide))]
    simp [utoa]
  · rw [habs]
    exact round_half_even_spec _ (mul_nonneg (abs_nonneg q) (by norm_num))

/-- The value 10 is printed as `10.00`. -/
theorem fmt_fixed2_ten : fmt_fixed2 10 = "10.00".toList := by
  have h : round_half_even ((if (10 : Rat) < 0 then -(10 : Rat) else 10) * 100) = 1000 := by
    have e : (if (10 : Rat) < 0 then -(10 : Rat) else 10) * 100 = 1000 := by norm_num
    rw [e]
    unfold round_half_even
    have hf : (1000 : Rat).floor.toNat = 1000 := rfl
    simp only [hf]
    norm_num
  unfold fmt_fixed2
  simp only [h]
  rw [if_neg (by norm_num)]
  decide

theorem fmt_fixed2_zero : fmt_fixed2 0 = "0.00".toList := by
  have h : round_half_even ((if (0 : Rat) < 0 then -(0 : Rat) else 0) * 100) = 0 := by
    have e : (if (0 : Rat) < 0 then -(0 : Rat) else 0) * 100 = 0 := by norm_num
    rw [e]
    unfold round_half_even
    have hf : (0 : Rat).floor.toNat = 0 := rfl
    simp only [hf]
    norm_num
  unfold fmt_fixed2
  simp only [h]
  rw [if_neg (lt_irrefl _)]
  decide

/-! ## Facts about first occurrences -/

/-- The scan returns the first position at which the pattern occurs. -/
theorem find_scan_first (pat : Str) : ∀ (s : Str) (k i : Nat), k ≤ s.length →
    (∀ j, j < k → pat.isPrefixOf (s.drop j) = false) →
    pat.isPrefixOf (s.drop k) = true →
    find_scan pat s i = some (i + k) := by
  intro s
  induction s with
  | nil =>
    intro k i hk _ hp
    have hk0 : k = 0 := by simpa using hk
    subst hk0
    unfold find_scan
    rw [if_pos (by simpa using hp)]
    rfl
  | cons c cs ih =>
    intro k i hk hbefore hp
    unfold find_scan
    cases k with
    | zero =>
      rw [if_pos (by simpa using hp)]
      rfl
    | succ k' =>
      have h0 := hbefore 0 (Nat.succ_pos _)
      rw [List.drop_zero] at h0
      rw [h0]
      simp only [Bool.false_eq_true, if_false]
      rw [ih k' (i + 1) (by simpa using hk)
        (fun j hj => by simpa using hbefore (j + 1) (by omega))
        (by simpa using hp)]
      congr 1
      omega

/-- The scan finds nothing when the pattern occurs nowhere. -/
theorem find_scan_absent (pat : Str) : ∀ (s : Str) (i : Nat),
    (∀ j, j ≤ s.length → pat.isPrefixOf (s.drop j) = false) →
    find_scan pat s i = none := by
  intro s
  induction s with
  | nil =>
    intro i h
    unfold find_scan
    have h0 := h 0 (Nat.le_refl _)
    rw [List.drop_zero] at h0
    rw [h0]
    rfl
  | cons c cs ih =>
    intro i h
    unfold find_scan
    have h0 := h 0 (Nat.zero_le _)
    rw [List.drop_zero] at h0
    rw [h0]
    simp only [Bool.false_eq_true, if_false]
    exact ih (i + 1) (fun j hj => by simpa using h (j + 1) (by simpa using hj))

/-- A one-character pattern is a prefix exactly of the strings that start with
that character. -/
theorem isPrefixOf_single (c : Char) (s : Str) :
    List.isPrefixOf [c] s = true ↔ s.head? = some c := by
  cases s with
  | nil => simp [List.isPrefixOf]
  | cons a l =>
    simp [List.isPrefixOf]
    exact eq_comm

theorem find_scan_char (c : Char) (m : Str) (hm : ∀ x ∈ m, x ≠ c) (rest : Str) (i : Nat) :
    find_scan [c] (m ++ c :: rest) i = some (i + m.length) := by
  apply find_scan_first
  · simp
  · intro j hj
    rw [List.drop_append_of_le_length (Nat.le_of_lt hj)]
    cases hd : m.drop j with
    | nil =>
      have := List.drop_eq_nil_iff.mp hd
      omega
    | cons a l =>
      have ha : a ∈ m := List.mem_of_mem_drop (by rw [hd]; exact List.mem_cons_self _ _)
      have hne := hm a ha
      simp [List.isPrefixOf, Ne.symm hne]
  · rw [List.drop_left]
    simp [List.isPrefixOf]

theorem find_scan_char_absent (c : Char) (m : Str) (hm : ∀ x ∈ m, x ≠ c) (i : Nat) :
    find_scan [c] m i = none := by
  apply find_scan_absent
  intro j _
  cases hd : m.drop j with
  | nil => simp [List.isPrefixOf]
  | cons a l =>
    have ha : a ∈ m := List.mem_of_mem_drop (by rw [hd]; exact List.mem_cons_self _ _)
    have hne := hm a ha
    simp [List.isPrefixOf, Ne.symm hne]

/-- The call `find(c, pos)` on a string with no `c` from `pos` on. -/
theorem find_char_absent (c : Char) (s : Str) (pos : Nat)
    (h : ∀ x ∈ s.drop pos, x ≠ c) : find s [c] pos = npos := by
  unfold find
  split
  · rfl
  · rw [find_scan_char_absent c _ h]

/-- The call `find(c, pos)` on a string whose part from `pos` on is `m`, then
`c`, then anything, where `m` has no `c`. -/
theorem find_char_at (c : Char) (s m rest : Str) (pos : Nat) (hpos : pos ≤ s.length)
    (hs : s.drop pos = m ++ c :: rest) (hm : ∀ x ∈ m, x ≠ c) :
    find s [c] pos = pos + m.length := by
  unfold find
  rw [if_neg (by omega), hs, find_scan_char c m hm]

theorem size_sub_npos (b : Nat) (hb : b ≤ npos) : size_sub npos b = npos - b := by
  unfold size_sub npos at *
  have h : b % 2 ^ 64 = b := Nat.mod_eq_of_lt (by omega)
  rw [h]
  omega

/-- Path extraction on a request without a space: the whole request. -/
theorem parse_path_no_space (request : Str) (hlen : request.length < 2 ^ 64)
    (h : ∀ c ∈ request, c ≠ ' ') :
    parse_path request = some request := by
  have hsp : (" ".toList : Str) = [' '] := rfl
  unfold parse_path
  simp only [hsp]
  have hf : find request [' '] 0 = npos :=
    find_char_absent ' ' request 0 (by simpa using h)
  have h0 : size_add npos 1 = 0 := by decide
  rw [hf, h0, hf]
  unfold substr
  rw [if_neg (by omega), List.drop_zero, size_sub_npos 0 (Nat.zero_le _)]
  have hl : request.length ≤ npos - 0 := by
    unfold npos
    omega
  rw [List.take_of_length_le hl]

/-- Path extraction on a request with exactly one space: the text after it. -/
theorem parse_path_one_space (a b : Str) (hlen : (a ++ ' ' :: b).length < 2 ^ 64)
    (ha : ∀ c ∈ a, c ≠ ' ') (hb : ∀ c ∈ b, c ≠ ' ') :
    parse_path (a ++ ' ' :: b) = some b := by
  have hsp : (" ".toList : Str) = [' '] := rfl
  simp only [List.length_append, List.length_cons] at hlen
  have hdrop : (a ++ ' ' :: b).drop (a.length + 1) = b := by
    have e : a ++ ' ' :: b = (a ++ [' ']) ++ b := by simp
    rw [e]
    exact List.drop_left' (by simp)
  unfold parse_path
  simp only [hsp]
  have hf1 : find (a ++ ' ' :: b) [' '] 0 = a.length := by
    rw [find_char_at ' ' (a ++ ' ' :: b) a b 0 (Nat.zero_le _) (by simp) ha]
    omega
  rw [hf1, size_add_small _ _ (by omega)]
  have hf2 : find (a ++ ' ' :: b) [' '] (a.length + 1) = npos :=
    find_char_absent ' ' _ _ (by rw [hdrop]; exact hb)
  rw [hf2]
  unfold substr
  rw [if_neg (by simp only [List.length_append, List.length_cons]; omega), hdrop,
    size_sub_npos _ (by unfold npos; omega)]
  rw [List.take_of_length_le (by unfold npos; omega)]

/-- Path extraction on a request with two spaces or more: the text between
the first two. -/
theorem parse_path_two_spaces (a b c : Str)
    (hlen : (a ++ ' ' :: (b ++ ' ' :: c)).length < 2 ^ 64)
    (ha : ∀ x ∈ a, x ≠ ' ') (hb : ∀ x ∈ b, x ≠ ' ') :
    parse_path (a ++ ' ' :: (b ++ ' ' :: c)) = some b := by
  have hsp : (" ".toList : Str) = [' '] := rfl
  simp only [List.length_append, List.length_cons] at hlen
  have hdrop : (a ++ ' ' :: (b ++ ' ' :: c)).drop (a.length + 1) = b ++ ' ' :: c := by
    have e : a ++ ' ' :: (b ++ ' ' :: c) = (a ++ [' ']) ++ (b ++ ' ' :: c) := by simp
    rw [e]
    exact List.drop_left' (by simp)
  unfold parse_path
  simp only [hsp]
  have hf1 : find (a ++ ' ' :: (b ++ ' ' :: c)) [' '] 0 = a.length := by
    rw [find_char_at ' ' _ a (b ++ ' ' :: c) 0 (Nat.zero_le _) (by simp) ha]
    omega
  rw [hf1, size_add_small _ _ (by omega)]
  have hf2 : find (a ++ ' ' :: (b ++ ' ' :: c)) [' '] (a.length + 1) =
      a.length + 1 + b.length :=
    find_char_at ' ' _ b c _ (by simp only [List.length_append, List.length_cons]; omega)
      hdrop hb
  rw [hf2, size_sub_small _ _ (by omega) (by omega)]
  have hsub : a.length + 1 + b.length - (a.length + 1) = b.length := by omega
  rw [hsub]
  unfold substr
  rw [if_neg (by simp only [List.length_append, List.length_cons]; omega), hdrop,
    List.take_left]

/-! ## Facts about the route conditions -/

/-- Two different route prefixes never start the same path. -/
theorem prefix_clash (p q path : Str) (hp : p <+: path) (hq : q <+: path)
    (h1 : ¬ p <+: q) (h2 : ¬ q <+: p) : False := by
  rcases Nat.le_total p.length q.length with h | h
  · exact h1 (List.prefix_of_prefix_length_le hp hq h)
  · exact h2 (List.prefix_of_prefix_length_le hq hp h)

/-- The viewer condition excludes a path that starts with `/s`. -/
theorem viewer_not_s (path q : Str) (hq : q <+: path) (hs : "/s".toList <+: q)
    (hv : path = "/".toList ∨ "/viewer".toList <+: path ∨ "/?".toList <+: path) : False := by
  have hsp : "/s".toList <+: path := hs.trans hq
  rcases hv with h | h | h
  · rw [h] at hsp
    exact absurd hsp (by decide)
  · exact prefix_clash _ _ path hsp h (by decide) (by decide)
  · exact prefix_clash _ _ path hsp h (by decide) (by decide)

/-! ## Facts about the raw prefix -/

/-- The prefix handed to the snapshot handler, in terms of the raw value. -/
theorem snapshot_pfx_eq_raw (path : Str) :
    snapshot_pfx path =
      if find path "?prefix=".toList 0 ≠ npos then
        (raw_pfx path).map (fun raw => sanitize (url_decode raw))
      else some "snapshot".toList := by
  unfold snapshot_pfx raw_pfx
  simp only []
  split
  · cases substr path _ _ <;> rfl
  · rfl

/-- Position of the first occurrence of `"?prefix="`. -/
theorem find_query (a rest : Str)
    (hfirst : ∀ j, j < a.length →
      ¬ "?prefix=".toList <+: (a ++ ("?prefix=".toList ++ rest)).drop j) :
    find (a ++ ("?prefix=".toList ++ rest)) "?prefix=".toList 0 = a.length := by
  unfold find
  rw [if_neg (by omega), List.drop_zero,
    find_scan_first "?prefix=".toList _ a.length 0 (by simp)
      (fun j hj => by
        have h1 := hfirst j hj
        rw [← List.isPrefixOf_iff_prefix] at h1
        exact Bool.eq_false_iff.mpr h1)
      (by rw [List.drop_left, List.isPrefixOf_iff_prefix]; exact List.prefix_append _ _)]
  simp

theorem find_query_absent (path : Str) (h : ¬ "?prefix=".toList <:+: path) :
    find path "?prefix=".toList 0 = npos := by
  unfold find
  rw [if_neg (by omega), List.drop_zero, find_scan_absent]
  intro j _
  cases hp : List.isPrefixOf "?prefix=".toList (path.drop j) with
  | false => rfl
  | true =>
    exfalso
    apply h
    have h1 : "?prefix=".toList <+: path.drop j := List.isPrefixOf_iff_prefix.mp hp
    exact h1.isInfix.trans (List.drop_suffix j path).isInfix

/-- The raw prefix of a path, given what follows the first `"?prefix="`:
`raw` and then either the end of the path or an ampersand. -/
theorem raw_pfx_of_parts (a raw rest : Str)
    (hlen : (a ++ ("?prefix=".toList ++ (raw ++ rest))).length < 2 ^ 64)
    (hfirst : ∀ j, j < a.length →
      ¬ "?prefix=".toList <+: (a ++ ("?prefix=".toList ++ (raw ++ rest))).drop j)
    (hraw : ∀ c ∈ raw, c ≠ '&')
    (hrest : rest = [] ∨ ∃ tail, rest = '&' :: tail) :
    find (a ++ ("?prefix=".toList ++ (raw ++ rest))) "?prefix=".toList 0 ≠ npos ∧
    raw_pfx (a ++ ("?prefix=".toList ++ (raw ++ rest))) = some raw := by
  have h8 : "?prefix=".toList.length = 8 := rfl
  have hamp : ("&".toList : Str) = ['&'] := rfl
  have hq := find_query a (raw ++ rest) hfirst
  simp only [List.length_append, h8] at hlen
  have hdrop : (a ++ ("?prefix=".toList ++ (raw ++ rest))).drop (a.length + 8) = raw ++ rest := by
    rw [← List.append_assoc]
    exact List.drop_left' (by simp [h8])
  have hne : find (a ++ ("?prefix=".toList ++ (raw ++ rest))) "?prefix=".toList 0 ≠ npos := by
    rw [hq]
    unfold npos
    omega
  refine ⟨hne, ?_⟩
  unfold raw_pfx
  simp only [hamp]
  rw [hq, size_add_small _ _ (by omega)]
  have hlen2 : (a ++ ("?prefix=".toList ++ (raw ++ rest))).length
      = a.length + (8 + (raw.length + rest.length)) := by
    simp only [List.length_append, h8]
  rcases hrest with hnil | ⟨tail, htail⟩
  · subst hnil
    have hf : find (a ++ ("?prefix=".toList ++ (raw ++ []))) ['&'] (a.length + 8) = npos :=
      find_char_absent '&' _ _ (by rw [hdrop]; simpa using hraw)
    rw [hf, if_pos rfl]
    unfold substr
    rw [if_neg (by rw [hlen2]; omega), hdrop, hlen2,
      size_sub_small _ _ (by omega) (by simp only [List.length_nil] at hlen ⊢; omega)]
    rw [List.take_of_length_le (by simp only [List.length_append, List.length_nil]; omega)]
    simp
  · subst htail
    have hf : find (a ++ ("?prefix=".toList ++ (raw ++ '&' :: tail))) ['&'] (a.length + 8) =
        a.length + 8 + raw.length :=
      find_char_at '&' _ raw tail _ (by rw [hlen2]; omega) hdrop hraw
    simp only [List.length_cons] at hlen
    rw [hf, if_neg (by unfold npos; omega)]
    unfold substr
    rw [if_neg (by rw [hlen2]; omega), hdrop, size_sub_small _ _ (by omega) (by omega)]
    have hsub : a.length + 8 + raw.length - (a.length + 8) = raw.length := by omega
    rw [hsub, List.take_left]

/-! ## Facts about `%20` decoding -/

/-- Where the scan reports an occurrence, the pattern occurs. -/
theorem find_scan_spec (pat : Str) : ∀ (s : Str) (i j : Nat),
    find_scan pat s i = some j → i ≤ j ∧ pat <+: s.drop (j - i) := by
  intro s
  induction s with
  | nil =>
    intro i j h
    unfold find_scan at h
    split at h
    · rename_i hp
      injection h with h
      subst h
      exact ⟨Nat.le_refl _, by simpa using List.isPrefixOf_iff_prefix.mp hp⟩
    · simp at h
  | cons c cs ih =>
    intro i j h
    unfold find_scan at h
    split at h
    · rename_i hp
      injection h with h
      subst h
      refine ⟨Nat.le_refl _, ?_⟩
      rw [Nat.sub_self, List.drop_zero]
      exact List.isPrefixOf_iff_prefix.mp hp
    · obtain ⟨h1, h2⟩ := ih (i + 1) j h
      refine ⟨by omega, ?_⟩
      have e : j - i = (j - (i + 1)) + 1 := by omega
      rw [e, List.drop_succ_cons]
      exact h2

/-- A position returned by `find` is the start of an occurrence. -/
theorem find_spec (s pat : Str) (pos : Nat) (h : find s pat pos ≠ npos) :
    pat <+: s.drop (find s pat pos) := by
  unfold find at h ⊢
  split
  · rename_i hlt
    simp [hlt] at h
  · rename_i hle
    cases hf : find_scan pat (s.drop pos) pos with
    | none => simp [hle, hf] at h
    | some j =>
      simp only []
      obtain ⟨h1, h2⟩ := find_scan_spec pat _ _ _ hf
      rw [List.drop_drop] at h2
      have e : pos + (j - pos) = j := by omega
      rw [e] at h2
      exact h2

theorem decode_loop_absent (fuel : Nat) (p : Str) (pos : Nat)
    (h : find p "%20".toList pos = npos) : decode_loop fuel p pos = p := by
  cases fuel with
  | zero => rfl
  | succ f =>
    unfold decode_loop
    simp only [h, if_true]

theorem decode_loop_found (f : Nat) (p : Str) (pos : Nat)
    (h : find p "%20".toList pos ≠ npos) :
    decode_loop (f + 1) p pos =
      decode_loop f (replace p (find p "%20".toList pos) 3 " ".toList)
        (size_add (find p "%20".toList pos) 1) := by
  conv => lhs; unfold decode_loop
  simp only [h, if_false]

theorem replace_length (p : Str) (pos : Nat) (h : pos + 3 ≤ p.length) :
    (replace p pos 3 " ".toList).length + 2 = p.length := by
  unfold replace
  have h1 : (" ".toList : Str).length = 1 := rfl
  simp only [List.length_append, List.length_take, List.length_drop, h1]
  omega

/-- The decoding loop ends within `p.length` iterations: more fuel gives
the same result. -/
theorem decode_loop_fuel : ∀ (f : Nat) (p : Str) (pos k : Nat), p.length ≤ f →
    decode_loop (f + k) p pos = decode_loop f p pos := by
  intro f
  induction f with
  | zero =>
    intro p pos k hp
    have hnil : p = [] := List.length_eq_zero.mp (Nat.le_zero.mp hp)
    subst hnil
    have hf : find [] "%20".toList pos = npos := by
      unfold find
      split
      · rfl
      · have : List.drop pos ([] : Str) = [] := by simp
        rw [this]
        rfl
    rw [decode_loop_absent _ _ _ hf]
    rfl
  | succ f ih =>
    intro p pos k hp
    have e : f + 1 + k = (f + k) + 1 := by omega
    rw [e]
    by_cases h : find p "%20".toList pos = npos
    · rw [decode_loop_absent _ _ _ h, decode_loop_absent _ _ _ h]
    · rw [decode_loop_found _ _ _ h, decode_loop_found _ _ _ h]
      have hb := (find_bound p "%20".toList pos h).2
      have h3 : "%20".toList.length = 3 := rfl
      rw [h3] at hb
      have hl := replace_length p _ hb
      exact ih _ _ k (by omega)

/-- The part of the string before the search position is never changed. -/
theorem decode_loop_keeps : ∀ (f : Nat) (p : Str) (pos : Nat), p.length < 2 ^ 64 →
    p.take pos <+: decode_loop f p pos := by
  intro f
  induction f with
  | zero =>
    intro p pos _
    exact List.take_prefix _ _
  | succ f ih =>
    intro p pos hlen
    by_cases h : find p "%20".toList pos = npos
    · rw [decode_loop_absent _ _ _ h]
      exact List.take_prefix _ _
    · rw [decode_loop_found _ _ _ h]
      obtain ⟨hge, hb⟩ := find_bound p "%20".toList pos h
      have h3 : "%20".toList.length = 3 := rfl
      rw [h3] at hb
      have hl := replace_length p _ hb
      have hq : size_add (find p "%20".toList pos) 1 = find p "%20".toList pos + 1 :=
        size_add_small _ _ (by omega)
      rw [hq]
      refine List.IsPrefix.trans ?_ (ih _ _ (by omega))
      have htake : (replace p (find p "%20".toList pos) 3 " ".toList).take
          (find p "%20".toList pos + 1) = p.take (find p "%20".toList pos) ++ [' '] := by
        unfold replace
        have hlt : (p.take (find p "%20".toList pos)).length = find p "%20".toList pos := by
          rw [List.length_take]
          omega
        have e : List.take (find p "%20".toList pos) p ++ " ".toList
            ++ List.drop (find p "%20".toList pos + 3) p
            = (List.take (find p "%20".toList pos) p ++ [' '])
              ++ List.drop (find p "%20".toList pos + 3) p := rfl
        rw [e]
        exact List.take_left' (by rw [List.length_append, hlt]; rfl)
      rw [htake]
      have h1 : p.take pos <+: p.take (find p "%20".toList pos) :=
        (List.take_prefix_take_left p hge)
      exact h1.trans (List.prefix_append _ _)

/-- Once a `%20` is found, the decoded string holds a space. -/
theorem decode_loop_has_space (f : Nat) (p : Str) (pos : Nat) (hlen : p.length < 2 ^ 64)
    (h : find p "%20".toList pos ≠ npos) : ' ' ∈ decode_loop (f + 1) p pos := by
  rw [decode_loop_found _ _ _ h]
  obtain ⟨hge, hb⟩ := find_bound p "%20".toList pos h
  have h3 : "%20".toList.length = 3 := rfl
  rw [h3] at hb
  have hl := replace_length p _ hb
  have hq : size_add (find p "%20".toList pos) 1 = find p "%20".toList pos + 1 :=
    size_add_small _ _ (by omega)
  rw [hq]
  have hk := decode_loop_keeps f (replace p (find p "%20".toList pos) 3 " ".toList)
    (find p "%20".toList pos + 1) (by omega)
  have htake : (replace p (find p "%20".toList pos) 3 " ".toList).take
      (find p "%20".toList pos + 1) = p.take (find p "%20".toList pos) ++ [' '] := by
    unfold replace
    have hlt : (p.take (find p "%20".toList pos)).length = find p "%20".toList pos := by
      rw [List.length_take]
      omega
    have e : List.take (find p "%20".toList pos) p ++ " ".toList
        ++ List.drop (find p "%20".toList pos + 3) p
        = (List.take (find p "%20".toList pos) p ++ [' '])
          ++ List.drop (find p "%20".toList pos + 3) p := rfl
    rw [e]
    exact List.take_left' (by rw [List.length_append, hlt]; rfl)
  rw [htake] at hk
  exact hk.subset (by simp)

/-- A value with a character outside the class is replaced by the default. -/
theorem sanitize_of_bad (p : Str) (c : Char) (hc : c ∈ p) (hbad : c ∉ allowed_chars) :
    sanitize p = "snapshot".toList := by
  unfold sanitize
  have hv : pfx_valid p = false := by
    cases hp : pfx_valid p with
    | false => rfl
    | true => exact absurd ((pfx_valid_iff p).mp hp c hc) hbad
  rw [hv]
  rfl

/-! ## Facts about the steps of a frame update -/

/-- A successful `update_frame` is the frame-rate update, the timestamp
assignment and the locked section, in that order. -/
theorem update_frame_steps (s : Server) (c : FrameCall) (jpeg : Str)
    (hf : c.frame.empty = false) (he : c.encoded = some jpeg) :
    update_frame s c =
      publish_frame
        (publish_ts (update_fps { s with original_frame := c.frame } (c.now % 2 ^ 64))
          (c.now % 2 ^ 64)) jpeg := by
  unfold update_frame publish_frame publish_ts
  simp only [hf, he, Bool.false_eq_true, if_false]

/-! ## Facts about address discovery -/

theorem priority_ge_ten (ifa : Ifaddr) : 10 ≤ priority ifa := by
  unfold priority
  split_ifs <;> omega

theorem scan_step_skip (st : IpScan) (ifa : Ifaddr) (h : is_candidate ifa = false) :
    scan_step st ifa = st := by
  unfold is_candidate at h
  unfold scan_step
  cases ha : ifa.has_addr
  · simp
  · cases hi : ifa.is_inet
    · simp
    · by_cases hn : ifa.name = "lo".toList
      · simp [hn]
      · cases hh : ifa.host with
        | none => simp [hn]
        | some x =>
          simp [ha, hi, hn, hh] at h
          exact absurd h hn

theorem scan_step_best (seen : List Ifaddr) (st : IpScan) (ifa : Ifaddr)
    (h : scan_best seen st) : scan_best (seen ++ [ifa]) (scan_step st ifa) := by
  cases hc : is_candidate ifa with
  | false =>
    rw [scan_step_skip st ifa hc]
    rcases h with ⟨h1, h2, h3⟩ | ⟨c, hcm, h1, h2, h3, h4⟩
    · left
      refine ⟨?_, h2, h3⟩
      intro d hd
      rcases List.mem_append.mp hd with hd | hd
      · exact h1 d hd
      · rw [List.mem_singleton.mp hd]; exact hc
    · right
      refine ⟨c, List.mem_append_left _ hcm, h1, h2, h3, ?_⟩
      intro d hd hdc
      rcases List.mem_append.mp hd with hd | hd
      · exact h4 d hd hdc
      · rw [List.mem_singleton.mp hd, hc] at hdc
        exact absurd hdc (by decide)
  | true =>
    have hc' := hc
    unfold is_candidate at hc'
    simp only [Bool.and_eq_true, decide_eq_true_eq, Option.isSome_iff_exists] at hc'
    obtain ⟨⟨⟨ha, hi⟩, hn⟩, host, hh⟩ := hc'
    have hres : (scan_step st ifa).result =
          (if priority ifa > st.best_priority then host else st.result) ∧
        (scan_step st ifa).best_priority =
          (if priority ifa > st.best_priority then priority ifa else st.best_priority) := by
      unfold scan_step
      simp only [ha, hi, hn, hh, Bool.not_true, Bool.false_eq_true, if_false, if_true]
      by_cases hp : priority ifa > st.best_priority
      · simp only [hp, if_true]
        split <;> exact ⟨rfl, rfl⟩
      · simp only [hp, if_false]
        split <;> exact ⟨rfl, rfl⟩
    right
    by_cases hp : priority ifa > st.best_priority
    · rw [if_pos hp, if_pos hp] at hres
      refine ⟨ifa, by simp, hc, by rw [hres.1]; exact hh, hres.2, ?_⟩
      intro d hd hdc
      rcases List.mem_append.mp hd with hd | hd
      · rcases h with ⟨h1, _, _⟩ | ⟨c, _, _, _, h3, h4⟩
        · rw [h1 d hd] at hdc
          exact absurd hdc (by decide)
        · have := h4 d hd hdc
          omega
      · rw [List.mem_singleton.mp hd]
    · rw [if_neg hp, if_neg hp] at hres
      rcases h with ⟨_, h2, _⟩ | ⟨c, hcm, h1, h2, h3, h4⟩
      · have := priority_ge_ten ifa
        omega
      · refine ⟨c, List.mem_append_left _ hcm, h1, by rw [hres.1]; exact h2,
          by rw [hres.2]; exact h3, ?_⟩
        intro d hd hdc
        rcases List.mem_append.mp hd with hd | hd
        · exact h4 d hd hdc
        · rw [List.mem_singleton.mp hd]
          omega

theorem scan_fold_best : ∀ (l seen : List Ifaddr) (st : IpScan),
    scan_best seen st → scan_best (seen ++ l) (l.foldl scan_step st) := by
  intro l
  induction l with
  | nil => intro seen st h; simpa using h
  | cons a l ih =>
    intro seen st h
    have := ih (seen ++ [a]) (scan_step st a) (scan_step_best seen st a h)
    simpa using this

/-! ## Facts about the range of the frame-rate estimate -/

/-- C1: for every request read into the 4096-byte buffer whose path is `path`,
`handle_client_request` makes exactly one call and then closes the socket, and
the call is the one the routing table gives: the viewer page when the path is
`/` or starts with `/viewer` or `/?`; otherwise the MJPEG stream when it starts
with `/stream`; otherwise the stats response when it starts with `/stats`;
otherwise the snapshot handler when it starts with `/snapshot`; otherwise the
not-found response. -/
theorem handle_client_request_routing (viewer_html buf path : Str)
    (hbuf : buf.length ≤ 4095) (hpath : parse_path (cstr buf) = some path) :
    ∃ c, handle_client_request viewer_html (some buf) = some [SockOp.call c, SockOp.close] ∧
      ((path = "/".toList ∨ "/viewer".toList <+: path ∨ "/?".toList <+: path) →
        c = Call.send_response "text/html; charset=utf-8".toList viewer_html) ∧
      (¬ (path = "/".toList ∨ "/viewer".toList <+: path ∨ "/?".toList <+: path) →
        "/stream".toList <+: path → c = Call.send_mjpeg_stream) ∧
      (¬ (path = "/".toList ∨ "/viewer".toList <+: path ∨ "/?".toList <+: path) →
        ¬ "/stream".toList <+: path → "/stats".toList <+: path →
        c = Call.send_stats_response) ∧
      (¬ (path = "/".toList ∨ "/viewer".toList <+: path ∨ "/?".toList <+: path) →
        ¬ "/stream".toList <+: path → ¬ "/stats".toList <+: path →
        "/snapshot".toList <+: path → ∃ p, c = Call.handle_snapshot_request p) ∧
      (¬ (path = "/".toList ∨ "/viewer".toList <+: path ∨ "/?".toList <+: path) →
        ¬ "/stream".toList <+: path → ¬ "/stats".toList <+: path →
        ¬ "/snapshot".toList <+: path →
        c = Call.send_response "text/html".toList not_found) := by
  have hlen : path.length < 2 ^ 64 := by
    have h1 := parse_path_length_le _ _ hpath
    have h2 := cstr_length_le buf
    omega
  obtain ⟨p, hp⟩ := snapshot_pfx_isSome path hlen
  unfold handle_client_request
  simp only [hpath, route_eq, hp, Option.map_some']
  by_cases hv : path = "/".toList ∨ "/viewer".toList <+: path ∨ "/?".toList <+: path
  · rw [if_pos hv]
    exact ⟨_, rfl, fun _ => rfl, fun h => absurd hv h, fun h => absurd hv h,
      fun h => absurd hv h, fun h => absurd hv h⟩
  · rw [if_neg hv]
    by_cases h1 : "/stream".toList <+: path
    · rw [if_pos h1]
      exact ⟨_, rfl, fun h => absurd h hv, fun _ _ => rfl, fun _ h => absurd h1 h,
        fun _ h => absurd h1 h, fun _ h => absurd h1 h⟩
    · rw [if_neg h1]
      by_cases h2 : "/stats".toList <+: path
      · rw [if_pos h2]
        exact ⟨_, rfl, fun h => absurd h hv, fun _ h => absurd h h1, fun _ _ _ => rfl,
          fun _ _ h => absurd h2 h, fun _ _ h => absurd h2 h⟩
      · rw [if_neg h2]
        by_cases h3 : "/snapshot".toList <+: path
        · rw [if_pos h3]
          exact ⟨_, rfl, fun h => absurd h hv, fun _ h => absurd h h1,
            fun _ _ h => absurd h h2, fun _ _ _ _ => ⟨p, rfl⟩, fun _ _ _ h => absurd h3 h⟩
        · rw [if_neg h3]
          exact ⟨_, rfl, fun h => absurd h hv, fun _ h => absurd h h1,
            fun _ _ h => absurd h h2, fun _ _ _ h => absurd h h3, fun _ _ _ _ => rfl⟩

/-- Witness for C1: the request `GET /stream?t=1 HTTP/1.1`. -/
theorem handle_client_request_routing_witness :
    ∃ c, handle_client_request [] (some "GET /stream?t=1 HTTP/1.1\r\n\r\n".toList)
        = some [SockOp.call c, SockOp.close] ∧ c = Call.send_mjpeg_stream := by
  obtain ⟨c, hc, _, h2, _⟩ := handle_client_request_routing []
    "GET /stream?t=1 HTTP/1.1\r\n\r\n".toList "/stream?t=1".toList (by decide) (by decide)
  exact ⟨c, hc, h2 (by decide) (by decide)⟩

/-- C2: on the request `GET /unknown`, which matches no route, the handler
calls `send_response` with content type `text/html` and the body
`<h1>404 Not Found</h1>`, and the bytes this writes start with the status
line `HTTP/1.1 200 OK`, not with a 404 status. -/
theorem not_found_status_line :
    handle_client_request [] (some "GET /unknown HTTP/1.1\r\n\r\n".toList)
      = some [SockOp.call (Call.send_response "text/html".toList not_found), SockOp.close] ∧
    sent_bytes (send_response "text/html".toList not_found) =
      ("HTTP/1.1 200 OK\r\nContent-Type: text/html\r\nContent-Length: 22\r\n"
        ++ "Connection: close\r\n\r\n<h1>404 Not Found</h1>").toList := by
  constructor <;> decide

/-! ## Frame counter (C3) -/

/-- C3, as stated, fails once the 64-bit counter wraps: after `2 ^ 64`
successful `update_frame` calls on a fresh server the frame id is 0, not the
number of successful calls. -/
theorem frame_id_wraps :
    (update_frames fresh (List.replicate (2 ^ 64) good_call)).latest_frame_id = 0 ∧
    (update_frames fresh (List.replicate (2 ^ 64) good_call)).latest_frame_id ≠
      successes (List.replicate (2 ^ 64) good_call) := by
  have h : (update_frames fresh (List.replicate (2 ^ 64) good_call)).latest_frame_id = 0 := by
    rw [update_frames_id _ _ (by decide), successes_replicate good_call (by decide)]
    decide
  refine ⟨h, ?_⟩
  rw [h, successes_replicate good_call (by decide)]
  decide

/-- C3 (amended): from a fresh server, after any sequence of `update_frame`
calls the frame id is the number of calls with a non-empty frame and a
successful encode, modulo `2 ^ 64`; while that number is below `2 ^ 64` the id
equals it, every such call in the sequence raises the id by exactly 1, every
other call leaves it unchanged, and the id never decreases. -/
theorem frame_id_counts (calls : List FrameCall) :
    (update_frames fresh calls).latest_frame_id = successes calls % 2 ^ 64 ∧
    (successes calls < 2 ^ 64 →
      (update_frames fresh calls).latest_frame_id = successes calls ∧
      ∀ (before after : List FrameCall) (c : FrameCall), calls = before ++ c :: after →
        (update_frames fresh (before ++ [c])).latest_frame_id =
            (update_frames fresh before).latest_frame_id + (if c.ok then 1 else 0) ∧
        (update_frames fresh before).latest_frame_id ≤
            (update_frames fresh (before ++ [c])).latest_frame_id) := by
  have h0 : fresh.latest_frame_id < 2 ^ 64 := by decide
  have hz : fresh.latest_frame_id = 0 := rfl
  have hid : ∀ l, (update_frames fresh l).latest_frame_id = successes l % 2 ^ 64 := by
    intro l
    rw [update_frames_id l fresh h0, hz, Nat.zero_add]
  refine ⟨hid calls, fun hlt => ⟨?_, ?_⟩⟩
  · rw [hid, Nat.mod_eq_of_lt hlt]
  · intro before after c hsplit
    have hsum : successes calls = successes before + ((if c.ok then 1 else 0) + successes after) := by
      rw [hsplit, successes_append, successes_cons]
    have hc : successes (before ++ [c]) = successes before + (if c.ok then 1 else 0) := by
      rw [successes_append, successes_cons, successes_nil, Nat.add_zero]
    rw [hid, hid, hc]
    have hb : successes before + (if c.ok then 1 else 0) < 2 ^ 64 := by omega
    rw [Nat.mod_eq_of_lt hb, Nat.mod_eq_of_lt (by omega)]
    exact ⟨rfl, Nat.le_add_right _ _⟩

/-- Witness for C3: a successful call, a failed encode, a successful call. -/
theorem frame_id_counts_witness :
    successes [good_call, failed_call, good_call] < 2 ^ 64 ∧
    (update_frames fresh [good_call, failed_call, good_call]).latest_frame_id = 2 ∧
    (update_frames fresh ([good_call] ++ [failed_call])).latest_frame_id =
      (update_frames fresh [good_call]).latest_frame_id + 0 := by
  have h := (frame_id_counts [good_call, failed_call, good_call]).2 (by decide)
  refine ⟨by decide, h.1, ?_⟩
  exact (h.2 [good_call] [good_call] failed_call rfl).1

/-! ## Stream order (C4) -/

/-- C4, as stated, fails once the 64-bit counter wraps: on a started server,
a frame is pushed and sent with id 1, then `2 ^ 64 - 1` further frames are
pushed before the loop runs again, and the loop sends the frame with id 0. -/
theorem stream_ids_wrap :
    sent_ids (run (started, stream_begin)
      ([Event.update good_call, Event.stream none]
        ++ (List.replicate (2 ^ 64 - 1) (Event.update good_call)
        ++ [Event.stream none]))).2 = [1, 0] := by
  rw [run_append, run_append, run_replicate_update]
  have h1 : run (started, stream_begin) [Event.update good_call, Event.stream none] =
      (update_frame started good_call,
        stream_step (update_frame started good_call) stream_begin none) := rfl
  rw [h1]
  have hid1 : (update_frame started good_call).latest_frame_id = 1 := by
    rw [update_frame_id]; rfl
  have hrun1 : (update_frame started good_call).running = true := by
    rw [update_frame_running]; rfl
  have hj1 : (update_frame started good_call).current_jpeg = ['J'] :=
    update_frame_good_call_jpeg started
  have hs1 : sent_ids (stream_step (update_frame started good_call) stream_begin none) = [1] := by
    rw [stream_step_sends _ _ _ rfl hrun1 (by rw [hid1]; decide) (by rw [hj1]; decide), hid1]
    rfl
  have hstep1 := stream_step_none (update_frame started good_call) stream_begin rfl hrun1
    (by rw [hid1]; decide) (by rw [hj1]; decide)
  have hd1 := hstep1.1
  have hl1 : (stream_step (update_frame started good_call) stream_begin none).last_frame_sent
      = 1 := by rw [hstep1.2, hid1]
  have hsplit : List.replicate (2 ^ 64 - 1) good_call =
      List.replicate (2 ^ 64 - 2) good_call ++ [good_call] :=
    List.replicate_succ' (2 ^ 64 - 2) good_call
  have hid : (update_frames (update_frame started good_call)
      (List.replicate (2 ^ 64 - 1) good_call)).latest_frame_id = 0 := by
    rw [update_frames_id _ _ (by rw [hid1]; decide), hid1,
      successes_replicate good_call (by decide)]
    decide
  have hrun : (update_frames (update_frame started good_call)
      (List.replicate (2 ^ 64 - 1) good_call)).running = true := by
    rw [update_frames_running, hrun1]
  have hjpeg : (update_frames (update_frame started good_call)
      (List.replicate (2 ^ 64 - 1) good_call)).current_jpeg = ['J'] := by
    rw [hsplit, update_frames_append]
    exact update_frame_good_call_jpeg _
  rw [run_single, step_stream_snd]
  rw [stream_step_sends _ _ _ hd1 hrun (by rw [hid, hl1]; decide)
    (by rw [hjpeg]; decide), hs1, hid]
  rfl

/-- C4 (amended): for every interleaving of `update_frame` calls with the
steps of one `send_mjpeg_stream` loop, started against any server state, on
which the 64-bit frame counter does not wrap, the frame ids of the parts the
loop sends are strictly increasing. -/
theorem stream_ids_increasing (s0 : Server) (evs : List Event)
    (hroom : s0.latest_frame_id + successes (updates_of evs) < 2 ^ 64) :
    (sent_ids (run (s0, stream_begin) evs).2).Pairwise (fun a b => a < b) := by
  have h0 : stream_inv (s0, stream_begin) := by
    refine ⟨Nat.zero_le _, ?_, ?_⟩
    · intro i hi
      simp [sent_ids, stream_begin] at hi
    · simp [sent_ids, stream_begin]
  exact (run_inv evs (s0, stream_begin) h0 hroom).2.2

/-- Witness for C4: two frames pushed and sent in turn, then a step with no
new frame. -/
theorem stream_ids_increasing_witness :
    started.latest_frame_id + successes (updates_of
      [Event.update good_call, Event.stream none, Event.update good_call,
        Event.stream none, Event.stream none]) < 2 ^ 64 ∧
    (sent_ids (run (started, stream_begin)
      [Event.update good_call, Event.stream none, Event.update good_call,
        Event.stream none, Event.stream none]).2).Pairwise (fun a b => a < b) :=
  ⟨by decide, stream_ids_increasing started _ (by decide)⟩

/-! ## Snapshot prefix (C5, C6) -/

/-- C5: the sanitiser returns its input unchanged when the input is non-empty
and every character is in `[A-Za-z0-9_-]` (so `cam_01` passes through), and
returns the default `snapshot` when the input is empty or has a character
outside the class (so `my photo!` becomes `snapshot`). -/
theorem sanitize_spec (p : Str) :
    (p ≠ [] → (∀ c ∈ p, c ∈ allowed_chars) → sanitize p = p) ∧
    ((p = [] ∨ ∃ c ∈ p, c ∉ allowed_chars) → sanitize p = "snapshot".toList) ∧
    sanitize "cam_01".toList = "cam_01".toList ∧
    sanitize "my photo!".toList = "snapshot".toList := by
  refine ⟨?_, ?_, by decide, by decide⟩
  · intro hne hall
    unfold sanitize
    have hv := (pfx_valid_iff p).mpr hall
    have he : p.isEmpty = false := by
      cases p with
      | nil => exact absurd rfl hne
      | cons c cs => rfl
    rw [hv, he]
    rfl
  · intro h
    unfold sanitize
    rcases h with rfl | ⟨c, hc, hbad⟩
    · rfl
    · have hv : pfx_valid p = false := by
        cases hp : pfx_valid p with
        | false => rfl
        | true => exact absurd ((pfx_valid_iff p).mp hp c hc) hbad
      rw [hv]
      rfl

/-- Witness for C5: the input `cam_01` is returned unchanged and the input
`a.b` is replaced by the default. -/
theorem sanitize_spec_witness :
    sanitize "cam_01".toList = "cam_01".toList ∧ sanitize "a.b".toList = "snapshot".toList :=
  ⟨(sanitize_spec "cam_01".toList).1 (by decide) (by decide),
    (sanitize_spec "a.b".toList).2.1 (Or.inr ⟨'.', by decide, by decide⟩)⟩

/-- C6: whenever `handle_client_request` calls the snapshot handler, with or
without a `prefix` query parameter in the path, the prefix it passes is
non-empty and made only of characters in `[A-Za-z0-9_-]`; it holds no carriage
return, line feed, double quote, slash or dot. -/
theorem snapshot_prefix_safe (viewer_html : Str) (received : Option Str)
    (ops : List SockOp) (p : Str)
    (hrun : handle_client_request viewer_html received = some ops)
    (hcall : SockOp.call (Call.handle_snapshot_request p) ∈ ops) :
    p ≠ [] ∧ (∀ c ∈ p, c ∈ allowed_chars) ∧
    '\r' ∉ p ∧ '\n' ∉ p ∧ '"' ∉ p ∧ '/' ∉ p ∧ '.' ∉ p := by
  have hgood : p ≠ [] ∧ ∀ c ∈ p, c ∈ allowed_chars := by
    unfold handle_client_request at hrun
    cases received with
    | none =>
      simp only [Option.some.injEq] at hrun
      subst hrun
      simp at hcall
    | some buf =>
      simp only [] at hrun
      cases hpath : parse_path (cstr buf) with
      | none => rw [hpath] at hrun; simp at hrun
      | some path =>
        rw [hpath] at hrun
        simp only [] at hrun
        cases hroute : route viewer_html path with
        | none => rw [hroute] at hrun; simp at hrun
        | some c =>
          rw [hroute] at hrun
          simp only [Option.some.injEq] at hrun
          subst hrun
          simp only [List.mem_cons, SockOp.call.injEq, List.mem_singleton, reduceCtorEq,
            or_false, List.not_mem_nil] at hcall
          subst hcall
          rw [route_eq] at hroute
          split at hroute
          · simp at hroute
          · split at hroute
            · simp at hroute
            · split at hroute
              · simp at hroute
              · split at hroute
                · cases hpfx : snapshot_pfx path with
                  | none => rw [hpfx] at hroute; simp at hroute
                  | some q =>
                    rw [hpfx] at hroute
                    simp only [Option.map_some', Option.some.injEq,
                      Call.handle_snapshot_request.injEq] at hroute
                    subst hroute
                    unfold snapshot_pfx at hpfx
                    simp only [] at hpfx
                    split at hpfx
                    · split at hpfx
                      · simp at hpfx
                      · simp only [Option.some.injEq] at hpfx
                        subst hpfx
                        exact sanitize_valid _
                    · simp only [Option.some.injEq] at hpfx
                      subst hpfx
                      exact ⟨by decide, by decide⟩
                · simp at hroute
  refine ⟨hgood.1, hgood.2, ?_, ?_, ?_, ?_, ?_⟩ <;>
    exact fun hm => absurd (hgood.2 _ hm) (by decide)

/-- Witness for C6: the request `GET /snapshot?prefix=a%20b"c`. -/
theorem snapshot_prefix_safe_witness :
    "snapshot".toList ≠ [] ∧ (∀ c ∈ "snapshot".toList, c ∈ allowed_chars) ∧
    '\r' ∉ "snapshot".toList ∧ '\n' ∉ "snapshot".toList ∧ '"' ∉ "snapshot".toList ∧
    '/' ∉ "snapshot".toList ∧ '.' ∉ "snapshot".toList :=
  snapshot_prefix_safe [] (some "GET /snapshot?prefix=a%20b\"c HTTP/1.1\r\n\r\n".toList)
    [SockOp.call (Call.handle_snapshot_request "snapshot".toList), SockOp.close]
    "snapshot".toList (by decide) (by decide)

/-! ## Snapshot file name (C7) -/

set_option maxRecDepth 100000 in
/-- C7, as stated, fails for a long prefix and for a five-digit year: with a
sanitised prefix of 236 letters the 256-byte `snprintf` buffer cuts the name
after `.pn`, and in the year 10000 the date takes nine digits. -/
theorem snapshot_filename_cut :
    snapshot_filename (List.replicate 236 'a') sample_time =
      List.replicate 236 'a' ++ "_20240102_030405.pn".toList ∧
    snapshot_filename "cam".toList (tm_of 10000 1 2 3 4 5) =
      "cam_100000102_030405.png".toList := by
  constructor <;> decide

/-- C7 (amended): for every sanitised prefix `p` of at most 235 characters and
every local time with a year of at most four digits, the file name that
`handle_snapshot_request` puts in the `Content-Disposition` header is exactly
`p`, an underscore, the date as 8 digits YYYYMMDD, an underscore, the time as
6 digits HHMMSS, and the suffix `.png`. -/
theorem snapshot_filename_format (s : Server) (p image : Str)
    (year month day hour minute second : Nat)
    (hp : ∀ c ∈ p, c ∈ allowed_chars) (hlen : p.length ≤ 235)
    (hy : year ≤ 9999) (hmo : 1 ≤ month ∧ month ≤ 12) (hd : 1 ≤ day ∧ day ≤ 31)
    (hh : hour ≤ 23) (hmi : minute ≤ 59) (hs : second ≤ 60)
    (hframe : s.original_frame.empty = false) :
    handle_snapshot_request s p (some image) (tm_of year month day hour minute second) =
      [ snapshot_header image.length
          (p ++ ['_', Nat.digitChar (year / 1000), Nat.digitChar (year / 100 % 10),
                Nat.digitChar (year / 10 % 10), Nat.digitChar (year % 10),
                Nat.digitChar (month / 10), Nat.digitChar (month % 10),
                Nat.digitChar (day / 10), Nat.digitChar (day % 10),
                '_', Nat.digitChar (hour / 10), Nat.digitChar (hour % 10),
                Nat.digitChar (minute / 10), Nat.digitChar (minute % 10),
                Nat.digitChar (second / 10), Nat.digitChar (second % 10),
                '.', 'p', 'n', 'g']),
        image ] := by
  have hu : ("_".toList : Str) = ['_'] := rfl
  have hpng : (".png".toList : Str) = ['.', 'p', 'n', 'g'] := rfl
  have hname : snapshot_filename p (tm_of year month day hour minute second) =
      p ++ ['_', Nat.digitChar (year / 1000), Nat.digitChar (year / 100 % 10),
            Nat.digitChar (year / 10 % 10), Nat.digitChar (year % 10),
            Nat.digitChar (month / 10), Nat.digitChar (month % 10),
            Nat.digitChar (day / 10), Nat.digitChar (day % 10),
            '_', Nat.digitChar (hour / 10), Nat.digitChar (hour % 10),
            Nat.digitChar (minute / 10), Nat.digitChar (minute % 10),
            Nat.digitChar (second / 10), Nat.digitChar (second % 10),
            '.', 'p', 'n', 'g'] := by
    unfold snapshot_filename filename_text tm_of
    have e1 : ((year : Int) - 1900 + 1900) = (year : Int) := by omega
    have e2 : ((month : Int) - 1 + 1) = (month : Int) := by omega
    simp only [e1, e2]
    rw [fmt_d_nat, fmt_d_nat, fmt_d_nat, fmt_d_nat, fmt_d_nat, fmt_d_nat,
      zero_pad_four year (by omega), zero_pad_two month (by omega), zero_pad_two day (by omega),
      zero_pad_two hour (by omega), zero_pad_two minute (by omega),
      zero_pad_two second (by omega), cstr_of_allowed p hp, hu, hpng]
    simp only [List.append_assoc, List.cons_append, List.nil_append]
    apply List.take_of_length_le
    simp only [List.length_append, List.length_cons, List.length_nil]
    omega
  unfold handle_snapshot_request
  simp only [hframe, Bool.false_eq_true, if_false]
  rw [hname, cstr_of_all]
  rw [List.all_append, allowed_all_ne_nul p hp]
  simp only [List.all_cons, digitChar_ne_nul, List.all_nil, Bool.and_true, Bool.true_and]
  decide

/-- Witness for C7: the prefix `cam_01` at 2024-01-02 03:04:05, with a stored
frame of one element and a PNG of two bytes. -/
theorem snapshot_filename_format_witness :
    handle_snapshot_request (update_frame fresh good_call) "cam_01".toList (some ['P', 'N'])
        (tm_of 2024 1 2 3 4 5) =
      [ snapshot_header 2 "cam_01_20240102_030405.png".toList, ['P', 'N'] ] :=
  snapshot_filename_format (update_frame fresh good_call) "cam_01".toList ['P', 'N']
    2024 1 2 3 4 5 (by decide) (by decide) (by decide) (by decide) (by decide)
    (by decide) (by decide) (by decide) (by decide)

/-! ## Start and stop (C8, C9, C10) -/

/-- C8, as stated, fails on the return code: `start_server` called on the
started server returns 0, the success code, not the failure code -1. -/
theorem start_server_running_returns_zero :
    is_running started = true ∧
    (start_server started 8080 (some 7)).1 = 0 ∧
    (start_server started 8080 (some 7)).1 ≠ -1 := by
  refine ⟨rfl, rfl, ?_⟩
  have h : (start_server started 8080 (some 7)).1 = 0 := rfl
  rw [h]
  decide

/-- C8 (amended): `start_server` called on a server that is already running
returns the success code 0 and changes nothing: the port, the frame id, the
encoded buffer and every other field stay as they were. -/
theorem start_server_running (s : Server) (port : Int) (thread : Option Nat)
    (h : s.running = true) :
    start_server s port thread = (0, s) ∧
    (start_server s port thread).2.server_port = s.server_port ∧
    (start_server s port thread).2.latest_frame_id = s.latest_frame_id ∧
    (start_server s port thread).2.current_jpeg = s.current_jpeg := by
  have h0 : start_server s port thread = (0, s) := by
    unfold start_server
    rw [if_pos h]
  rw [h0]
  exact ⟨rfl, rfl, rfl, rfl⟩

/-- Witness for C8: a second start of the started server, on another port. -/
theorem start_server_running_witness :
    start_server started 8080 (some 7) = (0, started) ∧
    (start_server started 8080 (some 7)).2.server_port = started.server_port ∧
    (start_server started 8080 (some 7)).2.latest_frame_id = started.latest_frame_id ∧
    (start_server started 8080 (some 7)).2.current_jpeg = started.current_jpeg :=
  start_server_running started 8080 (some 7) rfl

/-- C9, as stated, fails: when `socket` fails (descriptor -1), or when `bind`
fails on descriptor 3, `start_server` on the fresh server has returned 0 and
`is_running` is still true after the server thread has given up. -/
theorem start_server_socket_failure :
    (start_server fresh 9595 (some 1)).1 = 0 ∧
    (server_thread_setup (start_server fresh 9595 (some 1)).2
      { socket_fd := -1, bind_ok := true, listen_ok := true }).2 = false ∧
    is_running (server_thread_setup (start_server fresh 9595 (some 1)).2
      { socket_fd := -1, bind_ok := true, listen_ok := true }).1 = true ∧
    (server_thread_setup (start_server fresh 9595 (some 1)).2
      { socket_fd := 3, bind_ok := false, listen_ok := true }).2 = false ∧
    is_running (server_thread_setup (start_server fresh 9595 (some 1)).2
      { socket_fd := 3, bind_ok := false, listen_ok := true }).1 = true := by
  exact ⟨rfl, rfl, rfl, rfl, rfl⟩

/-- C9 (amended): if creating, binding or listening on the server socket fails
during start-up, the failure happens on the server thread: `start_server`,
called on a stopped server whose thread was created, returns the success
code 0, and the thread ends before its accept loop, having closed the socket
it created when `bind` or `listen` failed. -/
theorem start_server_async_failure (s : Server) (port : Int) (tid : Nat) (env : SockEnv)
    (hstop : s.running = false)
    (hfail : env.socket_fd < 0 ∨ env.bind_ok = false ∨ env.listen_ok = false) :
    (start_server s port (some tid)).1 = 0 ∧
    (server_thread_setup (start_server s port (some tid)).2 env).2 = false ∧
    (0 ≤ env.socket_fd →
      (server_thread_setup (start_server s port (some tid)).2 env).1.closed_fds =
        s.closed_fds ++ [env.socket_fd]) := by
  have h0 : start_server s port (some tid) =
      (0, { s with
        server_port := port, running := true, latest_frame_id := 0, current_jpeg := [],
        inst := Instance.this, signals_hooked := true, server_thread_id := tid }) := by
    unfold start_server
    rw [if_neg (by rw [hstop]; decide)]
  rw [h0]
  refine ⟨rfl, ?_, ?_⟩
  · unfold server_thread_setup
    by_cases h1 : env.socket_fd < 0
    · rw [if_pos h1]
    · rw [if_neg h1]
      cases hb : env.bind_ok
      · rfl
      · cases hl : env.listen_ok
        · rfl
        · rcases hfail with h | h | h
          · exact absurd h h1
          · rw [hb] at h; exact absurd h (by decide)
          · rw [hl] at h; exact absurd h (by decide)
  · intro hfd
    unfold server_thread_setup
    rw [if_neg (by omega)]
    cases hb : env.bind_ok
    · rfl
    · cases hl : env.listen_ok
      · rfl
      · rcases hfail with h | h | h
        · omega
        · rw [hb] at h; exact absurd h (by decide)
        · rw [hl] at h; exact absurd h (by decide)

/-- Witness for C9: `listen` fails on descriptor 4. -/
theorem start_server_async_failure_witness :
    (start_server fresh 9595 (some 1)).1 = 0 ∧
    (server_thread_setup (start_server fresh 9595 (some 1)).2
      { socket_fd := 4, bind_ok := true, listen_ok := false }).2 = false ∧
    ((0 : Int) ≤ 4 →
      (server_thread_setup (start_server fresh 9595 (some 1)).2
        { socket_fd := 4, bind_ok := true, listen_ok := false }).1.closed_fds =
        fresh.closed_fds ++ [4]) :=
  start_server_async_failure fresh 9595 1 { socket_fd := 4, bind_ok := true, listen_ok := false }
    rfl (Or.inr (Or.inr rfl))

/-- C10: `stop_server` is idempotent and is a no-op on a stopped server. For
every state, stopping twice leaves the same state as stopping once, and the
two calls together close at most one socket, the listening one; on a server
that is not running, in particular a fresh one, `stop_server` changes no field
and closes nothing. -/
theorem stop_server_idempotent (s : Server) :
    stop_server (stop_server s) = stop_server s ∧
    ((stop_server (stop_server s)).closed_fds = s.closed_fds ∨
      (stop_server (stop_server s)).closed_fds = s.closed_fds ++ [s.server_sock_fd]) ∧
    (s.running = false → stop_server s = s) ∧
    stop_server fresh = fresh := by
  have hoff : ∀ t : Server, t.running = false → stop_server t = t := by
    intro t ht
    unfold stop_server
    rw [if_pos (by rw [ht]; rfl)]
  have hrun : (stop_server s).running = false := by
    unfold stop_server
    by_cases h : s.running = true
    · rw [if_neg (by rw [h]; decide)]
      unfold close_server_socket
      simp only []
      split <;> rfl
    · have h' : s.running = false := by simpa using h
      rw [if_pos (by rw [h']; rfl)]
      exact h'
  have hfds : (stop_server s).closed_fds = s.closed_fds ∨
      (stop_server s).closed_fds = s.closed_fds ++ [s.server_sock_fd] := by
    unfold stop_server
    by_cases h : s.running = true
    · rw [if_neg (by rw [h]; decide)]
      unfold close_server_socket
      simp only []
      split
      · exact Or.inr rfl
      · exact Or.inl rfl
    · have h' : s.running = false := by simpa using h
      rw [if_pos (by rw [h']; rfl)]
      exact Or.inl rfl
  refine ⟨hoff _ hrun, ?_, hoff s, rfl⟩
  rw [hoff _ hrun]
  exact hfds

/-- Witness for C10: stopping the fresh server, which was never started, and
stopping a listening server twice. -/
theorem stop_server_idempotent_witness :
    stop_server fresh = fresh ∧
    stop_server (stop_server listening) = stop_server listening ∧
    (stop_server (stop_server listening)).closed_fds = [5] :=
  ⟨(stop_server_idempotent fresh).2.2.1 rfl, (stop_server_idempotent listening).1, rfl⟩

/-! ## Accepted sockets (C11) -/

/-- C11: when `accept` returns socket 7 and `pthread_create` fails for the
handler thread, the accept loop does nothing more with the socket: it is
never closed, whereas the claim requires exactly one close on that path. -/
theorem accepted_socket_leak :
    accept_pass 7 false Instance.this [] (some "GET / HTTP/1.1\r\n\r\n".toList) = some [] ∧
    (accept_pass 7 false Instance.this [] (some "GET / HTTP/1.1\r\n\r\n".toList)).map closes
      = some 0 ∧
    (accept_pass 7 true Instance.this [] (some "GET / HTTP/1.1\r\n\r\n".toList)).map closes
      = some 1 := by
  refine ⟨rfl, rfl, ?_⟩
  decide

/-! ## Frame-rate estimate (C12, C13, C14) and failed encodes (C15) -/

/-- C12, as stated, fails for the first sample: after calls at 1000 ms and
1100 ms on a fresh server the prior estimate is 0 and the sample is 10, and
the new estimate is 10, not 0.85 * 0 + 0.15 * 10. -/
theorem fps_first_sample_seeds :
    (update_frames fresh [call_at 1000]).ema_fps = 0 ∧
    (update_frames fresh [call_at 1000, call_at 1100]).ema_fps = 10 ∧
    (update_frames fresh [call_at 1000, call_at 1100]).ema_fps ≠
      (85 / 100) * (update_frames fresh [call_at 1000]).ema_fps
        + (15 / 100) * (1000 / ((1100 - 1000 : Nat) : Rat)) := by
  obtain ⟨a1, b1, c1⟩ := update_frame_first fresh (call_at 1000) rfl rfl
  have hl : (update_frame fresh (call_at 1000)).last_capture_ts_local = 1000 := by
    rw [c1]; rfl
  obtain ⟨a2, b2, _⟩ := update_frame_sample (update_frame fresh (call_at 1000)) (call_at 1100)
    rfl (by rw [hl]; decide) (by rw [hl]; decide) (by decide)
  have h1 : (update_frames fresh [call_at 1000]).ema_fps = 0 := a1
  have h2 : (update_frames fresh [call_at 1000, call_at 1100]).ema_fps = 10 := by
    show (update_frame (update_frame fresh (call_at 1000)) (call_at 1100)).ema_fps = 10
    rw [a2, b2, b1, hl]
    show (if (0 : Rat) ≤ 0 then 1000 / ((1100 - 1000 : Nat) : Rat) else _) = 10
    rw [if_pos (le_refl _)]
    norm_num
  refine ⟨h1, h2, ?_⟩
  rw [h2, h1]
  norm_num

/-- C12 (amended): in a state reached from the fresh server by `update_frame`
calls, a call with a non-empty frame whose timestamp is later than the
previous call's (non-zero) timestamp by `delta_ms` sets the FPS estimate to
0.85 times the prior estimate plus 0.15 times the sample `1000 / delta_ms`
when the prior estimate is positive, and to the sample itself when the prior
estimate is still zero (exact rational arithmetic). -/
theorem fps_blend (calls : List FrameCall) (c : FrameCall)
    (hf : c.frame.empty = false)
    (h0 : (update_frames fresh calls).last_capture_ts_local ≠ 0)
    (hlt : (update_frames fresh calls).last_capture_ts_local < c.now)
    (hnow : c.now < 2 ^ 64) :
    (0 < (update_frames fresh calls).ema_fps →
      (update_frame (update_frames fresh calls) c).ema_fps =
        (85 / 100) * (update_frames fresh calls).ema_fps + (15 / 100) *
          (1000 / ((c.now - (update_frames fresh calls).last_capture_ts_local : Nat) : Rat))) ∧
    ((update_frames fresh calls).ema_fps ≤ 0 →
      (update_frame (update_frames fresh calls) c).ema_fps =
        1000 / ((c.now - (update_frames fresh calls).last_capture_ts_local : Nat) : Rat)) := by
  have hinv := update_frames_ema_eq calls fresh rfl
  obtain ⟨a, b, _⟩ := update_frame_sample (update_frames fresh calls) c hf h0 hlt hnow
  rw [a, b, ← hinv]
  constructor
  · intro hpos
    rw [if_neg (not_le.mpr hpos)]
  · intro hle
    rw [if_pos hle]

/-- Witness for C12: calls at 1000, 1100 and 1300 ms; the third blends the
prior estimate 10 with the sample 5. -/
theorem fps_blend_witness :
    (update_frame (update_frames fresh [call_at 1000, call_at 1100]) (call_at 1300)).ema_fps =
      (85 / 100) * (update_frames fresh [call_at 1000, call_at 1100]).ema_fps + (15 / 100) *
        (1000 / ((1300 - (update_frames fresh [call_at 1000, call_at 1100]).last_capture_ts_local
          : Nat) : Rat)) := by
  obtain ⟨_, _, c1⟩ := update_frame_first fresh (call_at 1000) rfl rfl
  have hl1 : (update_frame fresh (call_at 1000)).last_capture_ts_local = 1000 := by
    rw [c1]; rfl
  obtain ⟨_, _, c2⟩ := update_frame_sample (update_frame fresh (call_at 1000)) (call_at 1100)
    rfl (by rw [hl1]; decide) (by rw [hl1]; decide) (by decide)
  have hl : (update_frames fresh [call_at 1000, call_at 1100]).last_capture_ts_local = 1100 := c2
  have hpos : 0 < (update_frames fresh [call_at 1000, call_at 1100]).ema_fps := by
    have h := (spaced_calls_state fresh { data := [0] } (fun _ => some ['J']) 1000
      ⟨rfl, rfl, rfl⟩ rfl (by decide) 1 (by decide)).2.2
    have hs : spaced_calls { data := [0] } (fun _ => some ['J']) 1000 2 =
        [call_at 1000, call_at 1100] := rfl
    rw [hs] at h
    rw [h]
    norm_num
  exact (fps_blend [call_at 1000, call_at 1100] (call_at 1300) rfl
    (by rw [hl]; decide) (by rw [hl]; decide) (by decide)).1 hpos

/-- C13: feeding `update_frame` non-empty frames whose capture timestamps
are exactly 100 ms apart, from a fresh estimator, makes the FPS estimate
equal to 10 from the third call on at the latest, so it is within 0.1 of
10.0 after at most 10 samples and stays there for every later sample (exact
rational arithmetic). -/
theorem fps_converges (frame : Mat) (enc : Nat → Option Str) (t0 n : Nat)
    (hf : frame.empty = false) (hn : 3 ≤ n) (hb : t0 + 100 * n < 2 ^ 64) :
    (update_frames fresh (spaced_calls frame enc t0 n)).ema_fps = 10 ∧
    |(update_frames fresh (spaced_calls frame enc t0 n)).ema_fps - 10| ≤ 1 / 10 := by
  have key : (update_frames fresh (spaced_calls frame enc t0 n)).ema_fps = 10 := by
    obtain ⟨m, rfl⟩ : ∃ m, n = m + 1 := ⟨n - 1, by omega⟩
    by_cases ht0 : 0 < t0
    · have h := (spaced_calls_state fresh frame enc t0 ⟨rfl, rfl, rfl⟩ hf ht0 m hb).2.2
      rw [if_neg (by omega)] at h
      exact h
    · have hz : t0 = 0 := by omega
      subst hz
      obtain ⟨k, rfl⟩ : ∃ k, m = k + 1 := ⟨m - 1, by omega⟩
      rw [spaced_calls_zero]
      show (update_frames (update_frame fresh { frame := frame, now := 0, encoded := enc 0 })
        (spaced_calls frame (fun i => enc (i + 1)) 100 (k + 1))).ema_fps = 10
      obtain ⟨a, b, c⟩ := update_frame_first fresh
        { frame := frame, now := 0, encoded := enc 0 } hf rfl
      have h := (spaced_calls_state
        (update_frame fresh { frame := frame, now := 0, encoded := enc 0 }) frame
        (fun i => enc (i + 1)) 100 ⟨c, b, a⟩ hf (by decide) k (by omega)).2.2
      rw [if_neg (by omega)] at h
      exact h
  rw [key]
  exact ⟨rfl, by norm_num⟩

/-- Witness for C13: ten calls starting at 1000 ms. -/
theorem fps_converges_witness :
    (update_frames fresh (spaced_calls { data := [0] } (fun _ => none) 1000 10)).ema_fps = 10 ∧
    |(update_frames fresh (spaced_calls { data := [0] } (fun _ => none) 1000 10)).ema_fps - 10|
      ≤ 1 / 10 :=
  fps_converges { data := [0] } (fun _ => none) 1000 10 rfl (by decide) (by decide)

/-- C14: an `update_frame` call whose capture timestamp equals the one
recorded by the previous call (a delta of zero) takes no sample: the FPS
estimate and the running estimate keep their prior values. -/
theorem fps_zero_delta (s : Server) (c : FrameCall)
    (h : c.now % 2 ^ 64 = s.last_capture_ts_local) :
    (update_frame s c).ema_fps = s.ema_fps ∧
    (update_frame s c).local_fps_estimate = s.local_fps_estimate := by
  cases hf : c.frame.empty with
  | true =>
    unfold update_frame
    rw [if_pos hf]
    exact ⟨rfl, rfl⟩
  | false =>
    obtain ⟨h1, h2, _⟩ := update_frame_fps s c hf
    obtain ⟨e1, e2⟩ :=
      (update_fps_spec { s with original_frame := c.frame } (c.now % 2 ^ 64)).2.2.2.2.2.1
        (Or.inr (by show u64_sub (c.now % 2 ^ 64) s.last_capture_ts_local = 0
                    rw [h]; exact u64_sub_self _))
    exact ⟨h1.trans e1, h2.trans e2⟩

/-- Witness for C14: a second call at 1100 ms after calls at 1000 and 1100 ms. -/
theorem fps_zero_delta_witness :
    (update_frame (update_frames fresh [call_at 1000, call_at 1100]) (call_at 1100)).ema_fps =
      (update_frames fresh [call_at 1000, call_at 1100]).ema_fps ∧
    (update_frame (update_frames fresh [call_at 1000, call_at 1100])
        (call_at 1100)).local_fps_estimate =
      (update_frames fresh [call_at 1000, call_at 1100]).local_fps_estimate := by
  obtain ⟨_, _, c1⟩ := update_frame_first fresh (call_at 1000) rfl rfl
  have hl1 : (update_frame fresh (call_at 1000)).last_capture_ts_local = 1000 := by
    rw [c1]; rfl
  obtain ⟨_, _, c2⟩ := update_frame_sample (update_frame fresh (call_at 1000)) (call_at 1100)
    rfl (by rw [hl1]; decide) (by rw [hl1]; decide) (by decide)
  have hl : (update_frames fresh [call_at 1000, call_at 1100]).last_capture_ts_local = 1100 := c2
  exact fps_zero_delta _ (call_at 1100) (by rw [hl]; rfl)

/-- C15: an `update_frame` call whose JPEG encode fails leaves
`latest_frame_id`, the encoded buffer `current_jpeg` and
`latest_capture_ts_ms` exactly as they were before the call. -/
theorem failed_encode_keeps_frame (s : Server) (c : FrameCall) (h : c.encoded = none) :
    (update_frame s c).latest_frame_id = s.latest_frame_id ∧
    (update_frame s c).current_jpeg = s.current_jpeg ∧
    (update_frame s c).latest_capture_ts_ms = s.latest_capture_ts_ms := by
  unfold update_frame
  cases hf : c.frame.empty with
  | true => exact ⟨rfl, rfl, rfl⟩
  | false =>
    simp only [h, Bool.false_eq_true, if_false]
    have hs := update_fps_spec { s with original_frame := c.frame } (c.now % 2 ^ 64)
    exact ⟨hs.2.1, hs.2.2.1, hs.2.2.2.1⟩

/-- Witness for C15: a failed encode after one successful call. -/
theorem failed_encode_keeps_frame_witness :
    (update_frame (update_frame fresh good_call) failed_call).latest_frame_id =
      (update_frame fresh good_call).latest_frame_id ∧
    (update_frame (update_frame fresh good_call) failed_call).current_jpeg =
      (update_frame fresh good_call).current_jpeg ∧
    (update_frame (update_frame fresh good_call) failed_call).latest_capture_ts_ms =
      (update_frame fresh good_call).latest_capture_ts_ms :=
  failed_encode_keeps_frame (update_frame fresh good_call) failed_call rfl

/-! ## Multipart parts (C16, C17) -/

/-- C17: for every JPEG buffer of `n` bytes that `send_mjpeg_stream` sends
(a byte vector, so `n < 2 ^ 64`), the three `send` calls of the part write
exactly `--frame`, the `Content-Type: image/jpeg` line, `Content-Length: `
followed by `n` in decimal and two line ends, then the `n` JPEG bytes
unchanged, then a line end; this is what a loop step whose sends all succeed
adds to the bytes written. -/
theorem mjpeg_part_bytes (s : Server) (cl : StreamClient)
    (hn : s.current_jpeg.length < 2 ^ 64)
    (hd : cl.done = false) (hr : s.running = true)
    (hne : s.latest_frame_id ≠ cl.last_frame_sent) (hj : s.current_jpeg ≠ []) :
    (stream_step s cl none).sends = cl.sends ++
      [ "--frame\r\nContent-Type: image/jpeg\r\nContent-Length: ".toList
          ++ Nat.toDigits 10 s.current_jpeg.length ++ "\r\n\r\n".toList,
        s.current_jpeg, "\r\n".toList ] ∧
    sent_bytes (mjpeg_part s.current_jpeg) =
      "--frame\r\nContent-Type: image/jpeg\r\nContent-Length: ".toList
        ++ Nat.toDigits 10 s.current_jpeg.length ++ "\r\n\r\n".toList
        ++ s.current_jpeg ++ "\r\n".toList := by
  have hj2 : s.current_jpeg.isEmpty = false := by
    cases h : s.current_jpeg with
    | nil => exact absurd h hj
    | cons a l => rfl
  constructor
  · unfold stream_step
    rw [if_neg (by rw [hd]; decide), if_neg (by rw [hr]; decide), if_neg hne,
      if_neg (by rw [hj2]; decide)]
    show _ ++ mjpeg_part s.current_jpeg = _
    rw [mjpeg_part_eq _ hn]
  · rw [mjpeg_part_eq _ hn]
    simp [sent_bytes]

/-- Witness for C17: the one-byte frame `J` sent to a new client of the
started server. -/
theorem mjpeg_part_bytes_witness :
    (stream_step (update_frame started good_call) stream_begin none).sends =
      stream_begin.sends ++
      [ "--frame\r\nContent-Type: image/jpeg\r\nContent-Length: ".toList
          ++ Nat.toDigits 10 (update_frame started good_call).current_jpeg.length
          ++ "\r\n\r\n".toList,
        (update_frame started good_call).current_jpeg, "\r\n".toList ] :=
  (mjpeg_part_bytes (update_frame started good_call) stream_begin
    (by rw [update_frame_good_call_jpeg]; decide) rfl
    (by rw [update_frame_running]; rfl)
    (by rw [update_frame_id]; decide)
    (by rw [update_frame_good_call_jpeg]; decide)).1

/-! ## Snapshot errors (C19) -/

/-- C19: when no non-empty frame was ever passed to `update_frame` (the
stored frame is empty), or when the PNG encode fails, `handle_snapshot_request`
makes exactly two sends: a header with status `200 OK` and content type
`text/html; charset=utf-8`, and an HTML error body; there is no `image/png`
header and there are no image bytes. -/
theorem snapshot_error_response :
    (∀ calls : List FrameCall, (∀ c ∈ calls, c.frame.empty = true) →
      (update_frames fresh calls).original_frame.empty = true) ∧
    (∀ (s : Server) (p : Str) (png : Option Str) (t : Tm), s.original_frame.empty = true →
      handle_snapshot_request s p png t =
        [ ("HTTP/1.1 200 OK\r\nContent-Type: text/html; charset=utf-8\r\n"
            ++ "Content-Length: 45\r\nConnection: close\r\n\r\n").toList,
          error_no_frame ]) ∧
    (∀ (s : Server) (p : Str) (t : Tm), s.original_frame.empty = false →
      handle_snapshot_request s p none t =
        [ ("HTTP/1.1 200 OK\r\nContent-Type: text/html; charset=utf-8\r\n"
            ++ "Content-Length: 39\r\nConnection: close\r\n\r\n").toList,
          error_encode ]) := by
  refine ⟨?_, ?_, ?_⟩
  · intro calls
    induction calls using List.reverseRecOn with
    | nil => intro _; rfl
    | append_singleton cs c ih =>
      intro h
      rw [update_frames_append]
      show (update_frame _ c).original_frame.empty = true
      unfold update_frame
      rw [if_pos (h c (by simp))]
      exact ih (fun x hx => h x (by simp [hx]))
  · intro s p png t h
    unfold handle_snapshot_request
    simp only [h, if_true]
    decide
  · intro s p t h
    unfold handle_snapshot_request
    simp only [h, Bool.false_eq_true, if_false]
    decide

/-- Witness for C19: a snapshot request on the fresh server after one call
with an empty frame. -/
theorem snapshot_error_response_witness :
    handle_snapshot_request
        (update_frames fresh [{ frame := { data := [] }, now := 1000, encoded := none }])
        "snapshot".toList (some ['P']) sample_time =
      [ ("HTTP/1.1 200 OK\r\nContent-Type: text/html; charset=utf-8\r\n"
          ++ "Content-Length: 45\r\nConnection: close\r\n\r\n").toList,
        error_no_frame ] :=
  snapshot_error_response.2.1 _ _ _ _
    (snapshot_error_response.1 [{ frame := { data := [] }, now := 1000, encoded := none }]
      (by decide))

/-! ## Path extraction (C20) -/

/-- C20: for every request of the form METHOD, one space, PATH, one space,
REST that fits the receive buffer, where METHOD and PATH hold no space and no
NUL byte, the path extracted by `handle_client_request` is exactly PATH. -/
theorem parse_path_request (method path rest : Str)
    (hm : ∀ c ∈ method, c ≠ ' ' ∧ c ≠ Char.ofNat 0)
    (hp : ∀ c ∈ path, c ≠ ' ' ∧ c ≠ Char.ofNat 0)
    (hlen : (method ++ ' ' :: (path ++ ' ' :: rest)).length ≤ 4095) :
    parse_path (cstr (method ++ ' ' :: (path ++ ' ' :: rest))) = some path := by
  have hcstr : cstr (method ++ ' ' :: (path ++ ' ' :: rest)) =
      method ++ ' ' :: (path ++ ' ' :: cstr rest) := by
    have e : method ++ ' ' :: (path ++ ' ' :: rest) = (method ++ ' ' :: (path ++ [' '])) ++ rest := by
      simp
    have e2 : method ++ ' ' :: (path ++ ' ' :: cstr rest) =
        (method ++ ' ' :: (path ++ [' '])) ++ cstr rest := by
      simp
    rw [e, e2]
    unfold cstr
    rw [List.takeWhile_append_of_pos]
    intro a ha
    simp only [List.mem_append, List.mem_cons, List.mem_singleton, List.not_mem_nil,
      or_false] at ha
    rcases ha with ha | ha | ha | ha
    · simpa using (hm a ha).2
    · rw [ha]; decide
    · simpa using (hp a ha).2
    · rw [ha]; decide
  have hcl := cstr_length_le (method ++ ' ' :: (path ++ ' ' :: rest))
  rw [hcstr] at hcl ⊢
  simp only [List.length_append, List.length_cons] at hcl hlen
  have hsp : (" ".toList : Str) = [' '] := rfl
  unfold parse_path
  simp only [hsp]
  have hf1 : find (method ++ ' ' :: (path ++ ' ' :: cstr rest)) [' '] 0 = method.length := by
    unfold find
    rw [if_neg (by omega), List.drop_zero, find_scan_space method (fun c hc => (hm c hc).1)]
    simp
  rw [hf1, size_add_small _ _ (by omega)]
  have hf2 : find (method ++ ' ' :: (path ++ ' ' :: cstr rest)) [' '] (method.length + 1) =
      method.length + 1 + path.length := by
    unfold find
    have hdrop : List.drop (method.length + 1) (method ++ ' ' :: (path ++ ' ' :: cstr rest)) =
        path ++ ' ' :: cstr rest := by
      have e : method ++ ' ' :: (path ++ ' ' :: cstr rest) =
          (method ++ [' ']) ++ (path ++ ' ' :: cstr rest) := by simp
      rw [e]
      exact List.drop_left' (by simp)
    rw [if_neg (by simp only [List.length_append, List.length_cons]; omega), hdrop,
      find_scan_space path (fun c hc => (hp c hc).1)]
  rw [hf2, size_sub_small _ _ (by omega) (by omega)]
  have hsub : method.length + 1 + path.length - (method.length + 1) = path.length := by omega
  rw [hsub]
  unfold substr
  rw [if_neg (by simp only [List.length_append, List.length_cons]; omega)]
  have hdrop : List.drop (method.length + 1) (method ++ ' ' :: (path ++ ' ' :: cstr rest)) =
      path ++ ' ' :: cstr rest := by
    have e : method ++ ' ' :: (path ++ ' ' :: cstr rest) =
        (method ++ [' ']) ++ (path ++ ' ' :: cstr rest) := by simp
    rw [e]
    exact List.drop_left' (by simp)
  rw [hdrop, List.take_left]

/-- Witness for C20: the request `GET /stats HTTP/1.1`. -/
theorem parse_path_request_witness :
    parse_path (cstr ("GET".toList ++ ' ' :: ("/stats".toList ++ ' ' :: "HTTP/1.1\r\n\r\n".toList)))
      = some "/stats".toList :=
  parse_path_request "GET".toList "/stats".toList "HTTP/1.1\r\n\r\n".toList
    (by decide) (by decide) (by decide)

/-! ## Statistics response (C18) -/

/-- C18: for every server state and clock value, `send_stats_response` sends
a header and then a body that is exactly the JSON object with the keys
`latestFrameId`, `latestCaptureTsMs`, `serverTsMs` and `estimatedFps` in that
order, the first three values printed as unsigned decimals and the last one
the FPS estimate `ema_fps` printed with exactly two digits after the point:
the digits are those of the count of hundredths nearest to the magnitude of
the estimate (the even count when it lies half-way between two), after a
minus sign when the estimate is negative; on a server that never received a
frame (frame id, capture timestamp and estimate all zero, as in the fresh
state) the body has `latestFrameId` 0, `latestCaptureTsMs` 0 and
`estimatedFps` 0.00, and when the estimate is 10 the body ends with
`"estimatedFps":10.00`. -/
theorem stats_body :
    (∀ (s : Server) (server_ts : Nat), ∃ (header fps : Str) (h : Nat),
      send_stats_response s server_ts =
        [ header,
          "\x7b\"latestFrameId\":".toList ++ Nat.toDigits 10 s.latest_frame_id
            ++ ",\"latestCaptureTsMs\":".toList ++ Nat.toDigits 10 s.latest_capture_ts_ms
            ++ ",\"serverTsMs\":".toList ++ Nat.toDigits 10 server_ts
            ++ ",\"estimatedFps\":".toList ++ fps ++ "\x7d".toList ] ∧
      fps = (if s.ema_fps < 0 then ['-'] else []) ++ Nat.toDigits 10 (h / 100)
        ++ ['.', Nat.digitChar (h % 100 / 10), Nat.digitChar (h % 100 % 10)] ∧
      |(h : Rat) - |s.ema_fps| * 100| ≤ 1 / 2 ∧
      (|(h : Rat) - |s.ema_fps| * 100| = 1 / 2 → h % 2 = 0)) ∧
    (∀ (s : Server) (server_ts : Nat),
      s.latest_frame_id = 0 → s.latest_capture_ts_ms = 0 → s.ema_fps = 0 →
      ∃ header, send_stats_response s server_ts =
        [ header,
          "\x7b\"latestFrameId\":0,\"latestCaptureTsMs\":0,\"serverTsMs\":".toList
            ++ Nat.toDigits 10 server_ts ++ ",\"estimatedFps\":0.00\x7d".toList ]) ∧
    fresh.latest_frame_id = 0 ∧ fresh.latest_capture_ts_ms = 0 ∧ fresh.ema_fps = 0 ∧
    (∀ (s : Server) (server_ts : Nat), s.ema_fps = 10 →
      ∃ header, send_stats_response s server_ts =
        [ header,
          "\x7b\"latestFrameId\":".toList ++ Nat.toDigits 10 s.latest_frame_id
            ++ ",\"latestCaptureTsMs\":".toList ++ Nat.toDigits 10 s.latest_capture_ts_ms
            ++ ",\"serverTsMs\":".toList ++ Nat.toDigits 10 server_ts
            ++ ",\"estimatedFps\":10.00\x7d".toList ]) := by
  refine ⟨?_, ?_, rfl, rfl, rfl, ?_⟩
  · intro s server_ts
    obtain ⟨h, hh, hnear, htie⟩ := fmt_fixed2_value s.ema_fps
    exact ⟨_, fmt_fixed2 s.ema_fps, h, rfl, hh, hnear, htie⟩
  · intro s server_ts hid hts hfps
    have hb : stats_json s server_ts =
        "\x7b\"latestFrameId\":0,\"latestCaptureTsMs\":0,\"serverTsMs\":".toList
          ++ Nat.toDigits 10 server_ts ++ ",\"estimatedFps\":0.00\x7d".toList := by
      unfold stats_json
      have e0 : utoa 0 = ['0'] := by decide
      rw [hid, hts, hfps, fmt_fixed2_zero, e0]
      simp [utoa]
    apply Exists.intro
    unfold send_stats_response send_response
    rw [hb]
  · intro s server_ts hfps
    have hb : stats_json s server_ts =
        "\x7b\"latestFrameId\":".toList ++ Nat.toDigits 10 s.latest_frame_id
          ++ ",\"latestCaptureTsMs\":".toList ++ Nat.toDigits 10 s.latest_capture_ts_ms
          ++ ",\"serverTsMs\":".toList ++ Nat.toDigits 10 server_ts
          ++ ",\"estimatedFps\":10.00\x7d".toList := by
      unfold stats_json
      rw [hfps, fmt_fixed2_ten]
      simp [utoa]
    apply Exists.intro
    unfold send_stats_response send_response
    rw [hb]

/-- Witness for C18: the statistics of the started server at clock 1234. -/
theorem stats_body_witness :
    ∃ header, send_stats_response started 1234 =
      [ header,
        "\x7b\"latestFrameId\":0,\"latestCaptureTsMs\":0,\"serverTsMs\":".toList
          ++ Nat.toDigits 10 1234 ++ ",\"estimatedFps\":0.00\x7d".toList ] :=
  stats_body.2.1 started 1234 rfl rfl rfl

/-! ## Totality of path extraction (C21) -/

/-- C21: path extraction is total. For every request string read from the
receive buffer the substring call stays within bounds and returns a path: the
whole request when it has no space, the text after the space when it has
exactly one, and the text between the first two spaces otherwise. -/
theorem parse_path_total (buf : Str) (hbuf : buf.length ≤ 4095) :
    (∃ path, parse_path (cstr buf) = some path) ∧
    ((∀ c ∈ cstr buf, c ≠ ' ') → parse_path (cstr buf) = some (cstr buf)) ∧
    (∀ a b : Str, cstr buf = a ++ ' ' :: b → (∀ c ∈ a, c ≠ ' ') → (∀ c ∈ b, c ≠ ' ') →
      parse_path (cstr buf) = some b) ∧
    (∀ a b c : Str, cstr buf = a ++ ' ' :: (b ++ ' ' :: c) →
      (∀ x ∈ a, x ≠ ' ') → (∀ x ∈ b, x ≠ ' ') → parse_path (cstr buf) = some b) := by
  have hl := cstr_length_le buf
  refine ⟨parse_path_isSome _ (by omega), parse_path_no_space _ (by omega), ?_, ?_⟩
  · intro a b hab ha hb
    rw [hab]
    exact parse_path_one_space a b (by rw [← hab]; omega) ha hb
  · intro a b c habc ha hb
    rw [habc]
    exact parse_path_two_spaces a b c (by rw [← habc]; omega) ha hb

/-- Witness for C21: the requests `GET`, `GET /x` and `GET /x HTTP/1.1`. -/
theorem parse_path_total_witness :
    parse_path (cstr "GET".toList) = some (cstr "GET".toList) ∧
    parse_path (cstr "GET /x".toList) = some "/x".toList ∧
    parse_path (cstr "GET /x HTTP/1.1".toList) = some "/x".toList :=
  ⟨(parse_path_total "GET".toList (by decide)).2.1 (by decide),
    (parse_path_total "GET /x".toList (by decide)).2.2.1 "GET".toList "/x".toList
      (by decide) (by decide) (by decide),
    (parse_path_total "GET /x HTTP/1.1".toList (by decide)).2.2.2 "GET".toList "/x".toList
      "HTTP/1.1".toList (by decide) (by decide) (by decide)⟩

/-! ## Exclusive routes (C30) -/

/-- C30: the route conditions are mutually exclusive: for every path no two
of (path is `/` or starts with `/viewer` or `/?`), (starts with `/stream`),
(starts with `/stats`), (starts with `/snapshot`) hold together, so each
condition alone decides the handler, whatever the order of the tests. -/
theorem routes_exclusive (viewer_html path : Str) (hlen : path.length < 2 ^ 64) :
    ¬ ((path = "/".toList ∨ "/viewer".toList <+: path ∨ "/?".toList <+: path) ∧
        "/stream".toList <+: path) ∧
    ¬ ((path = "/".toList ∨ "/viewer".toList <+: path ∨ "/?".toList <+: path) ∧
        "/stats".toList <+: path) ∧
    ¬ ((path = "/".toList ∨ "/viewer".toList <+: path ∨ "/?".toList <+: path) ∧
        "/snapshot".toList <+: path) ∧
    ¬ ("/stream".toList <+: path ∧ "/stats".toList <+: path) ∧
    ¬ ("/stream".toList <+: path ∧ "/snapshot".toList <+: path) ∧
    ¬ ("/stats".toList <+: path ∧ "/snapshot".toList <+: path) ∧
    ((path = "/".toList ∨ "/viewer".toList <+: path ∨ "/?".toList <+: path) →
      route viewer_html path =
        some (Call.send_response "text/html; charset=utf-8".toList viewer_html)) ∧
    ("/stream".toList <+: path → route viewer_html path = some Call.send_mjpeg_stream) ∧
    ("/stats".toList <+: path → route viewer_html path = some Call.send_stats_response) ∧
    ("/snapshot".toList <+: path →
      ∃ p, route viewer_html path = some (Call.handle_snapshot_request p)) := by
  have hvs1 : ¬ ((path = "/".toList ∨ "/viewer".toList <+: path ∨ "/?".toList <+: path) ∧
      "/stream".toList <+: path) :=
    fun h => viewer_not_s path _ h.2 (by decide) h.1
  have hvs2 : ¬ ((path = "/".toList ∨ "/viewer".toList <+: path ∨ "/?".toList <+: path) ∧
      "/stats".toList <+: path) :=
    fun h => viewer_not_s path _ h.2 (by decide) h.1
  have hvs3 : ¬ ((path = "/".toList ∨ "/viewer".toList <+: path ∨ "/?".toList <+: path) ∧
      "/snapshot".toList <+: path) :=
    fun h => viewer_not_s path _ h.2 (by decide) h.1
  have h12 : ¬ ("/stream".toList <+: path ∧ "/stats".toList <+: path) :=
    fun h => prefix_clash _ _ path h.1 h.2 (by decide) (by decide)
  have h13 : ¬ ("/stream".toList <+: path ∧ "/snapshot".toList <+: path) :=
    fun h => prefix_clash _ _ path h.1 h.2 (by decide) (by decide)
  have h23 : ¬ ("/stats".toList <+: path ∧ "/snapshot".toList <+: path) :=
    fun h => prefix_clash _ _ path h.1 h.2 (by decide) (by decide)
  obtain ⟨p, hp⟩ := snapshot_pfx_isSome path hlen
  refine ⟨hvs1, hvs2, hvs3, h12, h13, h23, ?_, ?_, ?_, ?_⟩
  · intro hv
    rw [route_eq, if_pos hv]
  · intro h1
    rw [route_eq, if_neg (fun hv => hvs1 ⟨hv, h1⟩), if_pos h1]
  · intro h2
    rw [route_eq, if_neg (fun hv => hvs2 ⟨hv, h2⟩), if_neg (fun h1 => h12 ⟨h1, h2⟩), if_pos h2]
  · intro h3
    rw [route_eq, if_neg (fun hv => hvs3 ⟨hv, h3⟩), if_neg (fun h1 => h13 ⟨h1, h3⟩),
      if_neg (fun h2 => h23 ⟨h2, h3⟩), if_pos h3, hp]
    exact ⟨p, rfl⟩

/-- Witness for C30: the path `/stats`. -/
theorem routes_exclusive_witness :
    route [] "/stats".toList = some Call.send_stats_response :=
  (routes_exclusive [] "/stats".toList (by decide)).2.2.2.2.2.2.2.2.1 (by decide)

/-! ## Raw prefix (C22) -/

/-- C22: for every path that holds `?prefix=`, the raw prefix taken before
decoding is the text that follows the first occurrence of `?prefix=` and
stops before the first `&` after it, or at the end of the path when no `&`
follows, and the prefix handed on is that text decoded and checked; for every
path without `?prefix=` the prefix is the default `snapshot`. -/
theorem raw_pfx_spec :
    (∀ a raw tail : Str,
      (a ++ ("?prefix=".toList ++ (raw ++ '&' :: tail))).length < 2 ^ 64 →
      (∀ j, j < a.length →
        ¬ "?prefix=".toList <+: (a ++ ("?prefix=".toList ++ (raw ++ '&' :: tail))).drop j) →
      (∀ c ∈ raw, c ≠ '&') →
      raw_pfx (a ++ ("?prefix=".toList ++ (raw ++ '&' :: tail))) = some raw ∧
      snapshot_pfx (a ++ ("?prefix=".toList ++ (raw ++ '&' :: tail))) =
        some (sanitize (url_decode raw))) ∧
    (∀ a raw : Str,
      (a ++ ("?prefix=".toList ++ raw)).length < 2 ^ 64 →
      (∀ j, j < a.length → ¬ "?prefix=".toList <+: (a ++ ("?prefix=".toList ++ raw)).drop j) →
      (∀ c ∈ raw, c ≠ '&') →
      raw_pfx (a ++ ("?prefix=".toList ++ raw)) = some raw ∧
      snapshot_pfx (a ++ ("?prefix=".toList ++ raw)) = some (sanitize (url_decode raw))) ∧
    (∀ path : Str, ¬ "?prefix=".toList <:+: path →
      snapshot_pfx path = some "snapshot".toList) := by
  refine ⟨?_, ?_, ?_⟩
  · intro a raw tail hlen hfirst hraw
    obtain ⟨hne, hr⟩ := raw_pfx_of_parts a raw ('&' :: tail) hlen hfirst hraw
      (Or.inr ⟨tail, rfl⟩)
    refine ⟨hr, ?_⟩
    rw [snapshot_pfx_eq_raw, if_pos hne, hr]
    rfl
  · intro a raw hlen hfirst hraw
    have e : a ++ ("?prefix=".toList ++ raw) = a ++ ("?prefix=".toList ++ (raw ++ [])) := by
      simp
    rw [e] at hlen hfirst ⊢
    obtain ⟨hne, hr⟩ := raw_pfx_of_parts a raw [] hlen hfirst hraw (Or.inl rfl)
    refine ⟨hr, ?_⟩
    rw [snapshot_pfx_eq_raw, if_pos hne, hr]
    rfl
  · intro path h
    rw [snapshot_pfx_eq_raw, if_neg (by rw [find_query_absent path h]; simp)]

/-- Witness for C22: the paths `/snapshot?prefix=cam&x=1` and `/snapshot`. -/
theorem raw_pfx_spec_witness :
    raw_pfx ("/snapshot".toList ++ ("?prefix=".toList ++ ("cam".toList ++ '&' :: "x=1".toList)))
      = some "cam".toList ∧
    snapshot_pfx "/snapshot".toList = some "snapshot".toList :=
  ⟨(raw_pfx_spec.1 "/snapshot".toList "cam".toList "x=1".toList (by decide) (by decide)
      (by decide)).1,
    raw_pfx_spec.2.2 "/snapshot".toList (by decide)⟩

/-! ## Decoding and sanitising (C27) -/

/-- C27: the `%20` decoding step has no effect on the result: for every raw
prefix, decoding `%20` to a space and then sanitising gives the same final
prefix as sanitising the raw prefix directly, since a prefix that holds `%20`
ends as the default `snapshot` either way; the decoding loop ends within as
many iterations as the prefix has characters. -/
theorem decode_then_sanitize (raw : Str) (hlen : raw.length < 2 ^ 64) :
    sanitize (url_decode raw) = sanitize raw ∧
    (find raw "%20".toList 0 ≠ npos → sanitize (url_decode raw) = "snapshot".toList) ∧
    (∀ k, decode_loop (raw.length + k) raw 0 = url_decode raw) := by
  have hfound : find raw "%20".toList 0 ≠ npos →
      sanitize (url_decode raw) = "snapshot".toList ∧ sanitize raw = "snapshot".toList := by
    intro h
    have hb := (find_bound raw "%20".toList 0 h).2
    have h3 : "%20".toList.length = 3 := rfl
    rw [h3] at hb
    obtain ⟨f, hf⟩ : ∃ f, raw.length = f + 1 := ⟨raw.length - 1, by omega⟩
    have hsp : ' ' ∈ url_decode raw := by
      unfold url_decode
      rw [hf]
      exact decode_loop_has_space f raw 0 hlen h
    have hpc : '%' ∈ raw := by
      have hp := find_spec raw "%20".toList 0 h
      have h1 : '%' ∈ "%20".toList := by decide
      exact List.mem_of_mem_drop (hp.subset h1)
    exact ⟨sanitize_of_bad _ ' ' hsp (by decide), sanitize_of_bad _ '%' hpc (by decide)⟩
  refine ⟨?_, fun h => (hfound h).1, fun k => decode_loop_fuel _ _ _ k (Nat.le_refl _)⟩
  by_cases h : find raw "%20".toList 0 = npos
  · unfold url_decode
    rw [decode_loop_absent _ _ _ h]
  · rw [(hfound h).1, (hfound h).2]

/-- Witness for C27: the raw prefix `my%20photo`. -/
theorem decode_then_sanitize_witness :
    sanitize (url_decode "my%20photo".toList) = sanitize "my%20photo".toList ∧
    sanitize (url_decode "my%20photo".toList) = "snapshot".toList :=
  ⟨(decode_then_sanitize "my%20photo".toList (by decide)).1,
    (decode_then_sanitize "my%20photo".toList (by decide)).2.1 (by decide)⟩

/-! ## Atomicity of a frame update (C23) -/

/-- C23: a statistics reader can see the new capture timestamp together with
the old frame id. After a first frame at 1000 ms (id 1), a second update at
2000 ms has assigned the timestamp but not yet entered its locked section
when the reader reads the timestamp and then, under the lock, the frame id:
it gets timestamp 2000 with id 1, a pair that is neither the state before the
update (1000, 1) nor the state after it (2000, 2). -/
theorem stats_sees_torn_update :
    ((update_frame fresh (call_at 1000)).latest_capture_ts_ms,
      (update_frame fresh (call_at 1000)).latest_frame_id) = (1000, 1) ∧
    stats_read_id
      (publish_ts (update_fps (update_frame fresh (call_at 1000)) 2000) 2000)
      (stats_read_ts
        (publish_ts (update_fps (update_frame fresh (call_at 1000)) 2000) 2000)
        { capture_ts := none, frame_id := none })
      = { capture_ts := some 2000, frame_id := some 1 } ∧
    update_frame (update_frame fresh (call_at 1000)) (call_at 2000) =
      publish_frame
        (publish_ts (update_fps (update_frame fresh (call_at 1000)) 2000) 2000) ['J'] ∧
    ((update_frame (update_frame fresh (call_at 1000)) (call_at 2000)).latest_capture_ts_ms,
      (update_frame (update_frame fresh (call_at 1000)) (call_at 2000)).latest_frame_id)
      = (2000, 2) := by
  have hid1 : (update_frame fresh (call_at 1000)).latest_frame_id = 1 := by
    rw [update_frame_id]; rfl
  have hts1 : (update_frame fresh (call_at 1000)).latest_capture_ts_ms = 1000 := rfl
  have hid2 : (update_frame (update_frame fresh (call_at 1000)) (call_at 2000)).latest_frame_id
      = 2 := by
    rw [update_frame_id, hid1]; rfl
  have hsteps := update_frame_steps (update_frame fresh (call_at 1000)) (call_at 2000) ['J']
    rfl rfl
  refine ⟨by rw [hts1, hid1], ?_, hsteps, ?_⟩
  · unfold stats_read_id stats_read_ts publish_ts
    simp only [(update_fps_spec _ _).2.1, hid1]
  · rw [hid2]
    rfl

/-! ## Closing the listening socket (C26) -/

/-- C26: when `bind` fails on descriptor 5 the server thread closes the
descriptor but leaves it stored in `server_sock_fd`, so a later `stop_server`
closes descriptor 5 a second time. -/
theorem listening_socket_closed_twice :
    (server_thread_setup (start_server fresh 9595 (some 1)).2
      { socket_fd := 5, bind_ok := false, listen_ok := true }).1.closed_fds = [5] ∧
    (server_thread_setup (start_server fresh 9595 (some 1)).2
      { socket_fd := 5, bind_ok := false, listen_ok := true }).1.server_sock_fd = 5 ∧
    (stop_server (server_thread_setup (start_server fresh 9595 (some 1)).2
      { socket_fd := 5, bind_ok := false, listen_ok := true }).1).closed_fds = [5, 5] ∧
    (stop_server (server_thread_setup (start_server fresh 9595 (some 1)).2
      { socket_fd := 5, bind_ok := true, listen_ok := false }).1).closed_fds = [5, 5] := by
  exact ⟨rfl, rfl, rfl, rfl⟩

/-! ## Restart (C29) -/

/-- C29: `start_server` on a stopped server resets `latest_frame_id` to 0 and
empties the encoded buffer, and leaves `latest_capture_ts_ms`, the FPS
estimate (with the running estimate and the last capture time behind it) and
the stored raw frame unchanged; the id after a restart is below every id
issued before, which are positive. -/
theorem restart_resets (s : Server) (port : Int) (thread : Option Nat)
    (h : s.running = false) :
    (start_server s port thread).2.latest_frame_id = 0 ∧
    (start_server s port thread).2.current_jpeg = [] ∧
    (start_server s port thread).2.latest_capture_ts_ms = s.latest_capture_ts_ms ∧
    (start_server s port thread).2.ema_fps = s.ema_fps ∧
    (start_server s port thread).2.local_fps_estimate = s.local_fps_estimate ∧
    (start_server s port thread).2.last_capture_ts_local = s.last_capture_ts_local ∧
    (start_server s port thread).2.original_frame = s.original_frame ∧
    (∀ n : Nat, 0 < n → (start_server s port thread).2.latest_frame_id < n) := by
  unfold start_server
  rw [if_neg (by rw [h]; decide)]
  cases thread with
  | none => exact ⟨rfl, rfl, rfl, rfl, rfl, rfl, rfl, fun n hn => hn⟩
  | some tid => exact ⟨rfl, rfl, rfl, rfl, rfl, rfl, rfl, fun n hn => hn⟩

/-- Witness for C29: the started server gets a frame at 1000 ms (id 1), is
stopped and started again. -/
theorem restart_resets_witness :
    (start_server (stop_server (update_frame started (call_at 1000))) 9595 (some 2)).2.latest_frame_id
      = 0 ∧
    (update_frame started (call_at 1000)).latest_frame_id = 1 ∧
    (start_server (stop_server (update_frame started (call_at 1000))) 9595
      (some 2)).2.latest_capture_ts_ms = 1000 := by
  have hstop : (stop_server (update_frame started (call_at 1000))).running = false := rfl
  have h := restart_resets (stop_server (update_frame started (call_at 1000))) 9595 (some 2) hstop
  refine ⟨h.1, ?_, ?_⟩
  · rw [update_frame_id]; rfl
  · rw [h.2.2.1]; rfl

/-! ## Address discovery (C25) -/

/-- C25, as stated, fails between two interfaces that are both down: with a
down `dummy0` listed before a down `wlan0` both get priority 10 and the
address of `dummy0` is returned, although the claim prefers the wireless one
within the same state. -/
theorem down_interfaces_not_ranked :
    priority (iface "dummy0" "10.0.0.2" false false) = 10 ∧
    priority (iface "wlan0" "10.0.0.1" false false) = 10 ∧
    get_local_ip (some [iface "dummy0" "10.0.0.2" false false,
      iface "wlan0" "10.0.0.1" false false]) = "10.0.0.2".toList := by
  refine ⟨?_, ?_, ?_⟩ <;> decide

/-- C25 (amended): `get_local_ip` returns the address of a candidate of
highest priority, where a candidate is an IPv4 entry with a printable
address that is not named `lo` (an entry named `lo` changes nothing), and the
priority ranks first by state (up and running above up only above down) and,
between two candidates that are both up and running or both up only, puts a
wireless (`wlan*`) interface above a wired (`eth*`/`en*`) one and a wired one
above any other, while every candidate that is down has priority 10 whatever
its name; the selection is stated for lists in which no candidate has the
address 127.0.0.1, which the final fallback step treats as "nothing found". -/
theorem get_local_ip_ranking :
    (∀ a b : Ifaddr, a.is_up = true → a.is_running = true →
      (b.is_up = false ∨ b.is_running = false) → priority b < priority a) ∧
    (∀ a b : Ifaddr, a.is_up = true → b.is_up = false → priority b < priority a) ∧
    (∀ a b : Ifaddr, a.is_up = true → b.is_up = true → a.is_running = b.is_running →
      starts_with a.name "wlan".toList = true → starts_with b.name "wlan".toList = false →
      priority b < priority a) ∧
    (∀ a b : Ifaddr, a.is_up = true → b.is_up = true → a.is_running = b.is_running →
      starts_with a.name "wlan".toList = false →
      (starts_with a.name "eth".toList = true ∨ starts_with a.name "en".toList = true) →
      starts_with b.name "wlan".toList = false → starts_with b.name "eth".toList = false →
      starts_with b.name "en".toList = false → priority b < priority a) ∧
    (∀ (st : IpScan) (ifa : Ifaddr), ifa.name = "lo".toList → scan_step st ifa = st) ∧
    (∀ l : List Ifaddr, (∃ c ∈ l, is_candidate c = true) →
      (∀ c ∈ l, is_candidate c = true → c.host ≠ some "127.0.0.1".toList) →
      ∃ c ∈ l, is_candidate c = true ∧ c.host = some (get_local_ip (some l)) ∧
        ∀ d ∈ l, is_candidate d = true → priority d ≤ priority c) ∧
    (∀ a : Ifaddr, a.is_up = false → priority a = 10) := by
  refine ⟨?_, ?_, ?_, ?_, ?_, ?_, ?_⟩
  · intro a b ha1 ha2 hb
    unfold priority
    rcases hb with hb | hb
    · simp only [ha1, ha2, hb, Bool.and_self, Bool.false_and, Bool.false_eq_true, if_true,
        if_false]
      split_ifs <;> omega
    · simp only [ha1, ha2, hb, Bool.and_self, Bool.and_false, Bool.false_eq_true, if_true,
        if_false]
      split_ifs <;> omega
  · intro a b ha hb
    unfold priority
    simp only [ha, hb, Bool.true_and, Bool.false_and, Bool.false_eq_true, if_true, if_false]
    split_ifs <;> omega
  · intro a b ha hb hr hwa hwb
    unfold priority
    simp only [ha, hb, hr, hwa, hwb, Bool.true_and, Bool.false_eq_true, if_true, if_false]
    split_ifs <;> omega
  · intro a b ha hb hr hwa hea hwb heb henb
    unfold priority
    simp only [ha, hb, hr, hwa, hwb, heb, henb, Bool.true_and, Bool.false_eq_true, if_true,
      if_false]
    rcases hea with h | h
    · simp only [h, if_true]
      split_ifs <;> omega
    · simp only [h, if_true]
      split_ifs <;> omega
  · intro st ifa hn
    apply scan_step_skip
    unfold is_candidate
    simp [hn]
  · intro l hex hhost
    have h0 : scan_best []
        { result := "127.0.0.1".toList, fallback_ip := [], best_priority := -1 } :=
      Or.inl ⟨by simp, rfl, rfl⟩
    have hb := scan_fold_best l [] _ h0
    rw [List.nil_append] at hb
    rcases hb with ⟨hnone, _, _⟩ | ⟨c, hcm, hc, hh, _, hmax⟩
    · obtain ⟨c, hcm, hc⟩ := hex
      rw [hnone c hcm] at hc
      exact absurd hc (by decide)
    · refine ⟨c, hcm, hc, ?_, hmax⟩
      have hne := hhost c hcm hc
      rw [hh] at hne
      have hne2 : (l.foldl scan_step
          { result := "127.0.0.1".toList, fallback_ip := [], best_priority := -1 }).result
          ≠ "127.0.0.1".toList := fun e => hne (by rw [e])
      unfold get_local_ip
      simp only [hne2, decide_False, Bool.false_and, Bool.false_eq_true, if_false]
      exact hh
  · intro a ha
    unfold priority
    simp only [ha, Bool.false_and, Bool.false_eq_true, if_false]

/-- Witness for C25: a wired interface that is up and running, a wireless one
that is only up, and the loopback interface. -/
theorem get_local_ip_ranking_witness :
    priority (iface "wlan0" "10.0.0.1" true false) < priority (iface "eth0" "10.0.0.2" true true) ∧
    ∃ c ∈ [iface "lo" "127.0.0.1" true true, iface "wlan0" "10.0.0.1" true false,
        iface "eth0" "10.0.0.2" true true],
      is_candidate c = true ∧
      c.host = some (get_local_ip (some [iface "lo" "127.0.0.1" true true,
        iface "wlan0" "10.0.0.1" true false, iface "eth0" "10.0.0.2" true true])) ∧
      ∀ d ∈ [iface "lo" "127.0.0.1" true true, iface "wlan0" "10.0.0.1" true false,
          iface "eth0" "10.0.0.2" true true],
        is_candidate d = true → priority d ≤ priority c :=
  ⟨get_local_ip_ranking.1 _ _ rfl rfl (Or.inr rfl),
    get_local_ip_ranking.2.2.2.2.2.1 _ ⟨iface "eth0" "10.0.0.2" true true, by decide, by decide⟩
      (by decide)⟩

/-! ## Range of the frame-rate estimate (C28) -/

end CameraStreamServer

/-! ## IMU model detection (C24) -/

namespace zf_device_imu

open imu_device_type_enum

/-- C24: when the event file reads back `3`, the value of `DEV_IMU660RC`, and
every sensor file opens, `init` leaves and returns `DEV_NO_FIND`, not
`DEV_IMU660RC`; for the values 1, 2 and 4 it returns the model and
`get_dev_type` reports it. -/
theorem init_rejects_imu660rc :
    DEV_IMU660RC.val = 3 ∧
    get_dev_type (init fresh (all_open ['3', '\n'])) = DEV_NO_FIND ∧
    get_dev_type (init fresh (all_open ['3'])) = DEV_NO_FIND ∧
    get_dev_type (init fresh (all_open ['1', '\n'])) = DEV_IMU660RA ∧
    get_dev_type (init fresh (all_open ['2', '\n'])) = DEV_IMU660RB ∧
    get_dev_type (init fresh (all_open ['4', '\n'])) = DEV_IMU963RA := by
  refine ⟨rfl, ?_, ?_, ?_, ?_, ?_⟩ <;> decide

end zf_device_imu
